import Mathlib

/-!
Verification development for the SKRYB storybook generator.

The repository is a Python pipeline (create_book.py CLI, api.py web endpoint)
orchestrating two external APIs through wrapper functions in openai_api.py,
with a small utility module utils.py.  External effects (HTTP responses,
raised exceptions, template formatting over the external prompts.json data,
user console input, file-system write success) are modelled as explicit
environment values; the control flow, branching and data threading of the
Python source are embedded directly.
-/

namespace SKRYB

/-- A chat message, as the dictionaries with role and content keys built in
openai_api.generate_single_page_structure. -/
structure Msg where
  role : String
  content : String
deriving DecidableEq, Repr

/-- Parsed JSON values, the possible results of json.loads on a response. -/
inductive Json where
  | null
  | bool (b : Bool)
  | num (n : Int)
  | str (s : String)
  | arr (elems : List Json)
  | obj (fields : List (String × Json))
deriving Repr

/-- Dictionary lookup on a parsed JSON object (Python dict indexing /
membership; parsed dicts have unique keys, so first match suffices). -/
def jsonLookup : List (String × Json) → String → Option Json
  | [], _ => none
  | (k, v) :: rest, key => if k == key then some v else jsonLookup rest key

/-- Python truthiness of a JSON value (used by checks such as
`if not page_data` and `if not page_content_text`). -/
def jsonPyTruthy : Json → Bool
  | .null => false
  | .bool b => b
  | .num n => n != 0
  | .str s => !s.isEmpty
  | .arr l => !l.isEmpty
  | .obj f => !f.isEmpty

/-- Python equality test between a JSON value and an int
(page_data["page_number"] == page_number); in Python a JSON bool also
compares equal to 0 or 1. -/
def pyEqNat (j : Json) (n : Nat) : Bool :=
  match j with
  | .num m => m == (n : Int)
  | .bool b => (if b then (1 : Int) else 0) == (n : Int)
  | _ => false

/-- Is this JSON value a string (isinstance(v, str))? -/
def jsonIsStr : Json → Bool
  | .str _ => true
  | _ => false

/-- Global configuration of the openai_api module: availability of the API
key, the OpenAI client, the loaded PROMPTS dictionary, and the two Stage 1
prompt entries (we retain their system_message strings; the
user_prompt_template string only acts through the formatting environment). -/
structure Config where
  /-- result of check_api_key() -/
  checkOk : Bool
  /-- client is not None -/
  clientSome : Bool
  /-- PROMPTS is truthy (prompts.json loaded) -/
  promptsLoaded : Bool
  /-- system_message under key stage1_text_generation_single_page, when present -/
  childrensSystemMsg : Option String
  /-- system_message under key stage1_text_generation_narrative_page, when present -/
  narrativeSystemMsg : Option String
deriving Repr

/-- Outcome of one Chat Completions call: a raised exception, or a returned
content string together with the result of json.loads on it (none models
a JSONDecodeError). -/
inductive ChatOutcome where
  | exn (msg : String)
  | content (raw : String) (parsed : Option Json)
deriving Repr

/-- Environment of one generate_single_page_structure call: the outcome of
formatting the page-1 initial user prompt from the external template, and
the outcome of the chat API call. -/
structure Stage1Env where
  fmtResult : Except String String
  api : ChatOutcome
deriving Repr

/-- Stage 1 prompt key selected from the style type (lines 84-91 of
openai_api.py; anything other than narrative defaults to childrens). -/
def stage1PromptKey (styleType : String) : String :=
  if styleType == "narrative" then "stage1_text_generation_narrative_page"
  else "stage1_text_generation_single_page"

/-- The text key the Stage 1 validation expects in the parsed response. -/
def expectedTextKey (styleType : String) : String :=
  if styleType == "narrative" then "script_text" else "page_text"

/-- The Stage 1 system message available for the selected style, if the
prompt entry exists in PROMPTS. -/
def stage1SystemMsg (cfg : Config) (styleType : String) : Option String :=
  if styleType == "narrative" then cfg.narrativeSystemMsg
  else cfg.childrensSystemMsg

/-- The fixed user message requesting a subsequent page (line 122 of
openai_api.py). -/
def nextPageRequest (p : Nat) : String :=
  "Now generate ONLY the JSON object for page " ++ toString p ++
    ", continuing the story logically."

/-- Validation of the parsed Stage 1 response (lines 145-149 of
openai_api.py): a dict containing page_number, scene_description and the
expected text key, with page_number equal to the requested page. -/
def validPage (j : Json) (expectedKey : String) (pageNumber : Nat) : Bool :=
  match j with
  | .obj fields =>
      (jsonLookup fields "page_number").isSome &&
      (jsonLookup fields "scene_description").isSome &&
      (jsonLookup fields expectedKey).isSome &&
      (match jsonLookup fields "page_number" with
       | some v => pyEqNat v pageNumber
       | none => false)
  | _ => false

/-- The part of generate_single_page_structure from the API call on
(lines 128-159): on exception return the error with the history built so
far; on content, append the assistant message, then parse and validate. -/
def stage1Call (env : Stage1Env) (expectedKey : String) (pageNumber : Nat)
    (currentHistory : List Msg) : Option Json × List Msg × Option String :=
  match env.api with
  | .exn m =>
      (none, currentHistory,
        some ("Error during Chat Completions API request for page " ++
          toString pageNumber ++ ": " ++ m))
  | .content raw parsed =>
      let hist2 := currentHistory ++ [⟨"assistant", raw⟩]
      match parsed with
      | none =>
          (none, hist2,
            some ("Error parsing JSON response for page " ++ toString pageNumber))
      | some j =>
          if validPage j expectedKey pageNumber then (some j, hist2, none)
          else
            (none, hist2,
              some ("Error parsing JSON response for page " ++ toString pageNumber))

/-- openai_api.generate_single_page_structure (value-level embedding;
history passed and returned by value, the aliasing behaviour is treated by
the heap embedding below).  Returns (page data, updated history, error). -/
def generate_single_page_structure (cfg : Config) (env : Stage1Env)
    (pageNumber : Nat) (messageHistory : List Msg) (styleType : String) :
    Option Json × List Msg × Option String :=
  if !(cfg.checkOk && cfg.clientSome) then
    (none, messageHistory, some "API key not configured or client not initialized.")
  else if !cfg.promptsLoaded then
    (none, messageHistory, some "Prompts could not be loaded.")
  else
    match stage1SystemMsg cfg styleType with
    | none =>
        (none, messageHistory,
          some ("Could not find prompt key " ++ stage1PromptKey styleType ++
            " in prompts.json"))
    | some systemMsg =>
        if pageNumber == 1 then
          match env.fmtResult with
          | .error e =>
              -- the raise inside the formatting try block propagates to the
              -- outer except, which returns the current (copied) history
              (none, messageHistory,
                some ("Error during Chat Completions API request for page " ++
                  toString pageNumber ++ ": " ++ e))
          | .ok userPrompt =>
              stage1Call env (expectedTextKey styleType) pageNumber
                [⟨"system", systemMsg⟩, ⟨"user", userPrompt⟩]
        else
          stage1Call env (expectedTextKey styleType) pageNumber
            (messageHistory ++ [⟨"user", nextPageRequest pageNumber⟩])

/-- Image bytes (the decoded b64_json payload). -/
abbrev Img := List Nat

/-- Python truthiness of an optional bytes value (empty bytes are falsy). -/
def imgTruthy : Option Img → Bool
  | none => false
  | some b => !b.isEmpty

/-- Outcome of one Images API HTTP request: a RequestException with an
optional response (status code, rendered details), another exception, or a
parsed JSON body whose data[0].b64_json field may be present (carrying the
decoded bytes). -/
inductive HttpOutcome where
  | reqExn (msg : String) (resp : Option (Nat × String))
  | otherExn (msg : String)
  | ok (b64 : Option Img)
deriving Repr

/-- Error message construction for a RequestException (lines 223-240 of
openai_api.py): a moderation prefix for status 400, details appended. -/
def imageReqErrMsg (m : String) (resp : Option (Nat × String)) : String :=
  let base := "Error during Images API request: " ++ m
  match resp with
  | none => base
  | some (status, details) =>
      let base2 := if status == 400 then "[Potential Moderation Error] " ++ base else base
      base2 ++ "\nDetails: " ++ details

/-- openai_api.generate_image_from_prompt: returns (image bytes, error). -/
def generate_image_from_prompt (cfg : Config) (o : HttpOutcome)
    (promptText : String) : Option Img × Option String :=
  let _ := promptText
  if !cfg.checkOk then (none, some "API key not configured.")
  else
    match o with
    | .ok (some bytes) => (some bytes, none)
    | .ok none =>
        (none, some "Error: Unexpected Images API response format. b64_json not found.")
    | .reqExn m resp => (none, some (imageReqErrMsg m resp))
    | .otherExn m =>
        (none, some ("An unexpected error occurred during image generation: " ++ m))

/-- Modelled from the spec: the image-edit wrapper edit_image_from_prompt is
imported by create_book.py, api.py and test_book_generation.py but is
missing from openai_api.py (and from the repository).  Per the spec, Stage 2
is "the image-generation or image-edit call that produces one page's
illustration" and each API call returns a (data, error) pair, so the edit
call is modelled like standard generation: it takes an input image and a
prompt and its outcome is environment-determined. -/
def edit_image_from_prompt (cfg : Config) (o : HttpOutcome) (inputImage : Img)
    (promptText : String) : Option Img × Option String :=
  let _ := inputImage
  generate_image_from_prompt cfg o promptText

/-- openai_api.infer_characters: returns (characters dict, error); the
parsed response must be a dict whose values are all strings. -/
def infer_characters (cfg : Config) (o : ChatOutcome) :
    Option (List (String × Json)) × Option String :=
  if !(cfg.checkOk && cfg.clientSome) then
    (none, some "API key not configured or client not initialized.")
  else
    match o with
    | .exn m =>
        (none,
          some ("Error during Chat Completions API request for character inference: " ++ m))
    | .content _ parsed =>
        match parsed with
        | none => (none, some "Error parsing JSON response for character inference")
        | some (.obj fields) =>
            if fields.all (fun kv => jsonIsStr kv.2) then (some fields, none)
            else (none, some "Error parsing JSON response for character inference")
        | some _ => (none, some "Error parsing JSON response for character inference")

/-! ## utils.sanitize_filename -/

/-- The characters removed by the first substitution in sanitize_filename. -/
def invalidFilenameChars : List Char :=
  ['<', '>', ':', '"', '/', '\\', '|', '?', '*']

/-- Whitespace as matched by a Python regular expression on str (ASCII
whitespace plus the Unicode whitespace code points). -/
def pyWhitespaceChars : List Char :=
  [' ', '\t', '\n', '\r', '\x0b', '\x0c',
   '\x1c', '\x1d', '\x1e', '\x1f', '\x85', '\xa0',
   ' ', ' ', ' ', ' ', ' ', ' ', ' ',
   ' ', ' ', ' ', ' ', ' ',
   ' ', ' ', ' ', ' ', '　']

/-- The character class of the second substitution in sanitize_filename:
whitespace, dot, comma, semicolon, exclamation mark. -/
def replacedClass (c : Char) : Bool :=
  pyWhitespaceChars.contains c || [',', '.', ';', '!'].contains c

/-- Run-collapsing substitution: each maximal run of characters in
replacedClass becomes a single underscore.  The flag records whether the
previous character was part of such a run. -/
def collapseAux : Bool → List Char → List Char
  | _, [] => []
  | inRun, c :: rest =>
      if replacedClass c then
        if inRun then collapseAux true rest
        else '_' :: collapseAux true rest
      else c :: collapseAux false rest

/-- The substitution of each maximal run of replacedClass characters by one
underscore (the second re.sub in sanitize_filename). -/
def collapseRuns (s : List Char) : List Char := collapseAux false s

/-- utils.sanitize_filename: remove the invalid characters, collapse runs of
whitespace and punctuation to single underscores, truncate to 100 code
points. -/
def sanitize_filename (name : String) : String :=
  ⟨((name.data.filter (fun c => !invalidFilenameChars.contains c))
      |> collapseRuns).take 100⟩

/-! ## Module import structure -/

/-- The module-level names defined by openai_api.py (its imports, constants,
the client, and the four functions). -/
def openai_api_names : List String :=
  ["requests", "os", "base64", "load_dotenv", "json", "OpenAI",
   "API_KEY", "IMAGE_API_URL", "PROMPTS_FILE", "client", "load_prompts",
   "PROMPTS", "check_api_key", "generate_single_page_structure",
   "generate_image_from_prompt", "infer_characters"]

/-- The names create_book.py imports from openai_api (lines 6-13). -/
def create_book_imports : List String :=
  ["generate_single_page_structure", "generate_image_from_prompt",
   "infer_characters", "check_api_key", "PROMPTS", "edit_image_from_prompt"]

/-- The names api.py imports from openai_api (lines 12-19). -/
def api_imports : List String :=
  ["generate_single_page_structure", "generate_image_from_prompt",
   "infer_characters", "check_api_key", "PROMPTS", "edit_image_from_prompt"]

/-- The names test_book_generation.py imports from openai_api (lines 5-11). -/
def test_book_generation_imports : List String :=
  ["generate_single_page_structure", "generate_image_from_prompt",
   "edit_image_from_prompt", "check_api_key", "PROMPTS"]

/-- Loading a module that does `from openai_api import (names)` raises
ImportError at the first requested name the module does not define; returns
that name, or none when the import succeeds. -/
def fromImportError (exports imports : List String) : Option String :=
  imports.find? (fun n => !exports.contains n)

/-! ## The create_book.py pipeline -/

/-- A Stage 2 call as issued by the callers: standard generation from a
prompt, or an edit of an input image with a prompt. -/
inductive ImgCall where
  | gen (prompt : String)
  | edit (input : Img) (prompt : String)
deriving DecidableEq, Repr

/-- Semantic events of a pipeline run, in program order: the cover
generation calls and the cover save, and per page the Stage 1 result, each
Stage 2 call (ok records whether the call returned without error), and the
save of the page image (carrying the saved bytes; its ok flag records
whether the file write raised IOError). -/
inductive Ev where
  | coverCall (prompt : String) (ok : Bool)
  | coverSave (filename : String) (ok : Bool)
  | stage1 (page : Nat) (ok : Bool)
  | imgCall (page : Nat) (call : ImgCall) (ok : Bool)
  | pageSave (page : Nat) (filename : String) (data : Img) (ok : Bool)
deriving DecidableEq, Repr

/-- The prompt of a Stage 2 call. -/
def callPrompt : ImgCall → String
  | .gen pr => pr
  | .edit _ pr => pr

/-- Uppercasing of one character (Python str.upper on the ASCII range,
which is what decides the SKIP comparison). -/
def upperChar (c : Char) : Char :=
  if 97 ≤ c.toNat ∧ c.toNat ≤ 122 then Char.ofNat (c.toNat - 32) else c

/-- user_response.upper(), as compared against SKIP. -/
def pyUpper (s : String) : String := ⟨s.data.map upperChar⟩

/-- Draw the outcome of the next Images API request from the environment
(an exhausted environment behaves as one more failing request). -/
def takeOutcome : List HttpOutcome → HttpOutcome × List HttpOutcome
  | [] => (.otherExn "no further responses", [])
  | o :: rest => (o, rest)

/-- The Stage 2 call create_book.py issues for a page: an edit of the input
image when consistency mode is on and the input image is truthy (lines
319-332 and 364-377), a standard generation otherwise. -/
def pageImageCall (cfg : Config) (consistency : Bool) (inputForEdit : Option Img)
    (prompt : String) (o : HttpOutcome) : ImgCall × (Option Img × Option String) :=
  if consistency then
    match inputForEdit with
    | some inp =>
        if !inp.isEmpty then (.edit inp prompt, edit_image_from_prompt cfg o inp prompt)
        else (.gen prompt, generate_image_from_prompt cfg o prompt)
    | none => (.gen prompt, generate_image_from_prompt cfg o prompt)
  else (.gen prompt, generate_image_from_prompt cfg o prompt)

/-- The interactive retry loop of create_book.py (lines 342-378): while the
last Stage 2 call errored, ask the user for a revised prompt; SKIP (or end
of input, the EOFError case) abandons the image; otherwise retry with the
user-supplied prompt using the same method (edit when consistency is on and
the input image is truthy, standard generation otherwise). -/
def imageRetryLoop (cfg : Config) (page : Nat) (consistency : Bool)
    (inputForEdit : Option Img) :
    List String → List HttpOutcome → Option Img × Option String →
    Option Img × List Ev
  | _, _, (d, none) => (d, [])
  | [], _, (_, some _) => (none, [])
  | u :: us, outs, (_, some _) =>
      if pyUpper u == "SKIP" then (none, [])
      else
        let cr := pageImageCall cfg consistency inputForEdit u (takeOutcome outs).1
        let r2 := imageRetryLoop cfg page consistency inputForEdit us
          (takeOutcome outs).2 cr.2
        (r2.1, .imgCall page cr.1 cr.2.2.isNone :: r2.2)

/-- The interactive retry loop for the cover (lines 169-194): identical
shape, but retries are always standard generation. -/
def coverRetryLoop (cfg : Config) :
    List String → List HttpOutcome → Option Img × Option String →
    Option Img × List Ev
  | _, _, (d, none) => (d, [])
  | [], _, (_, some _) => (none, [])
  | u :: us, outs, (_, some _) =>
      if pyUpper u == "SKIP" then (none, [])
      else
        let res := generate_image_from_prompt cfg (takeOutcome outs).1 u
        let r2 := coverRetryLoop cfg us (takeOutcome outs).2 res
        (r2.1, .coverCall u res.2.isNone :: r2.2)

/-- Environment of the cover phase: the outcome of formatting the cover
prompt from the external template (an error models the caught KeyError or
exception), the Images API outcomes, the console inputs of the retry loop,
and whether the file write succeeds. -/
structure CoverEnv where
  fmt : Except String String
  results : List HttpOutcome
  userInputs : List String
  saveOk : Bool
deriving Repr

/-- Per-page environment of the create_book.py loop. -/
structure PageEnv where
  s1 : Stage1Env
  imgFmt : Except String String
  imgResults : List HttpOutcome
  userInputs : List String
  saveOk : Bool
deriving Repr

/-- State threaded through the page loop: the conversation history and, in
consistency mode, the image data of the last successfully saved page. -/
structure CBState where
  history : List Msg
  prevImage : Option Img
deriving Repr

/-- The page-number part of the output filename, f-string format 02d:
zero-padded to a minimum width of two digits. -/
def format02 (n : Nat) : String :=
  if n < 10 then "0" ++ toString n else toString n

/-- The per-page output path os.path.join(book_dir, f-string page_NN.png). -/
def pageFilename (bookDir : String) (p : Nat) : String :=
  bookDir ++ "/page_" ++ format02 p ++ ".png"

/-- Cover generation, interactive retry and save (create_book.py lines
149-209).  Returns the cover_image_data variable as left for the page loop
and the emitted events.  A formatting error is caught by the surrounding
except and leaves the cover as None; a skipped cover stays None; a save
failure (IOError) is caught and does not clear the data. -/
def coverPhase (cfg : Config) (e : CoverEnv) (bookDir : String) :
    Option Img × List Ev :=
  match e.fmt with
  | .error _ => (none, [])
  | .ok prompt0 =>
      let res := generate_image_from_prompt cfg (takeOutcome e.results).1 prompt0
      let cr := coverRetryLoop cfg e.userInputs (takeOutcome e.results).2 res
      let evs0 := .coverCall prompt0 res.2.isNone :: cr.2
      if imgTruthy cr.1 then
        (cr.1, evs0 ++ [.coverSave (bookDir ++ "/cover.png") e.saveOk])
      else (cr.1, evs0)

/-- The input image for an edit in consistency mode (create_book.py lines
305-317): the cover for page 1, the previous page image when present for
later pages, nothing otherwise. -/
def inputForEditAt (p : Nat) (cover : Option Img) (prev : Option Img) : Option Img :=
  if p == 1 then cover
  else if imgTruthy prev then prev
  else none

/-- Stage 2 of a create_book.py page (lines 274-397), entered after the
scene description has been extracted without raising: prompt formatting,
the first generation-or-edit call, the interactive retry loop, and the
save. -/
def pageStage2 (cfg : Config) (consistency : Bool) (bookDir : String)
    (cover : Option Img) (e : PageEnv) (p : Nat) (st1 : CBState) :
    List Ev × Option CBState :=
  match e.imgFmt with
  | .error _ => ([.stage1 p true], some st1)
  | .ok prompt0 =>
      let inputE := if consistency then inputForEditAt p cover st1.prevImage else none
      let cr := pageImageCall cfg consistency inputE prompt0 (takeOutcome e.imgResults).1
      let ir := imageRetryLoop cfg p consistency inputE e.userInputs
        (takeOutcome e.imgResults).2 cr.2
      let evs := .stage1 p true :: .imgCall p cr.1 cr.2.2.isNone :: ir.2
      if imgTruthy ir.1 then
        let newPrev := if e.saveOk && consistency then ir.1 else st1.prevImage
        (evs ++ [.pageSave p (pageFilename bookDir p) (ir.1.getD []) e.saveOk],
          some { st1 with prevImage := newPrev })
      else (evs, some st1)

/-- One iteration of the create_book.py page loop (lines 218-400): Stage 1
with threaded history, the text extraction, then Stage 2.  Returns the
emitted events and the next state; none for the state models an uncaught
exception (scene_description present but not a string makes
scene_desc.lower() raise at line 268, and page_data.get on a non-dict
raises), which terminates the program. -/
def pageStep (cfg : Config) (styleType : String) (consistency : Bool)
    (bookDir : String) (cover : Option Img) (e : PageEnv) (p : Nat)
    (st : CBState) : List Ev × Option CBState :=
  let r := generate_single_page_structure cfg e.s1 p st.history styleType
  let st1 : CBState := { st with history := r.2.1 }
  match r.2.2 with
  | some _ => ([.stage1 p false], some st1)
  | none =>
      match r.1 with
      | none => ([.stage1 p false], some st1)
      | some j =>
          if !jsonPyTruthy j then ([.stage1 p false], some st1)
          else
            match j with
            | .obj fields =>
                match jsonLookup fields "scene_description" with
                | some v =>
                    if !jsonIsStr v then ([.stage1 p true], none)
                    else pageStage2 cfg consistency bookDir cover e p st1
                | none => pageStage2 cfg consistency bookDir cover e p st1
            | _ => ([.stage1 p true], none)

/-- The page loop of create_book.py: pages are processed in order; an
uncaught exception stops the whole run. -/
def pagesLoop (cfg : Config) (styleType : String) (consistency : Bool)
    (bookDir : String) (cover : Option Img) :
    List PageEnv → Nat → CBState → List Ev
  | [], _, _ => []
  | e :: rest, p, st =>
      match pageStep cfg styleType consistency bookDir cover e p st with
      | (evs, some st2) =>
          evs ++ pagesLoop cfg styleType consistency bookDir cover rest (p + 1) st2
      | (evs, none) => evs

/-- The image-producing part of create_book.main after the inputs are
collected: output directory from the sanitized title, cover phase, then the
page loop starting from an empty history and no previous image.  The number
of pages is the length of the page environment list. -/
def create_book_run (cfg : Config) (styleType : String) (consistency : Bool)
    (bookTitle : String) (coverEnv : CoverEnv) (pageEnvs : List PageEnv) :
    List Ev :=
  let bookDir := "output_books/" ++ sanitize_filename bookTitle
  let (cover, coverEvs) := coverPhase cfg coverEnv bookDir
  coverEvs ++ pagesLoop cfg styleType consistency bookDir cover pageEnvs 1 ⟨[], none⟩

/-! ## The api.py websocket page loop -/

/-- Per-page environment of the api.py loop (no console; the websocket only
reports progress). -/
structure ApiPageEnv where
  s1 : Stage1Env
  imgFmt : Except String String
  imgResults : List HttpOutcome
  saveOk : Bool
deriving Repr

/-- Save of an api.py page image (lines 312-325): when the image data is
truthy, a save event is emitted and, on a successful write in consistency
mode, the previous-image state is updated to this image. -/
def apiFinish (consistency : Bool) (bookDir : String) (e : ApiPageEnv)
    (p : Nat) (st1 : CBState) (imageData : Option Img) (evs : List Ev) :
    List Ev × Option CBState :=
  if imgTruthy imageData then
    let newPrev := if e.saveOk && consistency then imageData else st1.prevImage
    (evs ++ [.pageSave p (pageFilename bookDir p) (imageData.getD []) e.saveOk],
      some { st1 with prevImage := newPrev })
  else (evs, some st1)

/-- Stage 2 of an api.py page (lines 236-325): when consistency mode is on
and the previous image is truthy, an edit of the previous image, falling
back on error to a standard generation with the same prompt, the image
skipped when the fallback errors too; otherwise a single standard
generation, the image skipped on error. -/
def apiStage2 (cfg : Config) (consistency : Bool) (bookDir : String)
    (e : ApiPageEnv) (p : Nat) (st1 : CBState) : List Ev × Option CBState :=
  match e.imgFmt with
  | .error _ => ([.stage1 p true], some st1)
  | .ok prompt0 =>
      if consistency && decide (0 < p) && imgTruthy st1.prevImage then
        let inp := st1.prevImage.getD []
        let res1 := edit_image_from_prompt cfg (takeOutcome e.imgResults).1 inp prompt0
        match res1.2 with
        | none =>
            apiFinish consistency bookDir e p st1 res1.1
              [.stage1 p true, .imgCall p (.edit inp prompt0) true]
        | some _ =>
            let res2 := generate_image_from_prompt cfg
              (takeOutcome (takeOutcome e.imgResults).2).1 prompt0
            let d := match res2.2 with
              | some _ => none
              | none => res2.1
            apiFinish consistency bookDir e p st1 d
              [.stage1 p true, .imgCall p (.edit inp prompt0) false,
               .imgCall p (.gen prompt0) res2.2.isNone]
      else
        let res1 := generate_image_from_prompt cfg (takeOutcome e.imgResults).1 prompt0
        let d := match res1.2 with
          | some _ => none
          | none => res1.1
        apiFinish consistency bookDir e p st1 d
          [.stage1 p true, .imgCall p (.gen prompt0) res1.2.isNone]

/-- One iteration of the api.py page loop (lines 186-328): Stage 1 with
threaded history; a page whose text value is falsy is skipped; then Stage
2.  The state's prevImage starts as the cover data (line 184).  none for
the state models an exception reaching the outer handler, which ends all
page processing. -/
def apiPageStep (cfg : Config) (styleType : String) (consistency : Bool)
    (bookDir : String) (e : ApiPageEnv) (p : Nat) (st : CBState) :
    List Ev × Option CBState :=
  let r := generate_single_page_structure cfg e.s1 p st.history styleType
  let st1 : CBState := { st with history := r.2.1 }
  match r.2.2 with
  | some _ => ([.stage1 p false], some st1)
  | none =>
      match r.1 with
      | none => ([.stage1 p false], some st1)
      | some j =>
          if !jsonPyTruthy j then ([.stage1 p false], some st1)
          else
            match j with
            | .obj fields =>
                let textVal := jsonLookup fields (expectedTextKey styleType)
                if !(match textVal with | some v => jsonPyTruthy v | none => false) then
                  ([.stage1 p true], some st1)
                else
                  match jsonLookup fields "scene_description" with
                  | some v =>
                      if !jsonIsStr v then ([.stage1 p true], none)
                      else apiStage2 cfg consistency bookDir e p st1
                  | none => apiStage2 cfg consistency bookDir e p st1
            | _ => ([.stage1 p true], none)

/-! ## Heap embedding of generate_single_page_structure

For the aliasing claim we embed the mutable-list behaviour explicitly: a
heap of list cells, references as indices, `list(x)` as allocation of a
copy, `append` as in-place update of one cell. -/

abbrev Heap := List (List Msg)

/-- Read a cell. -/
def hGet (h : Heap) (r : Nat) : List Msg := h.getD r []

/-- Overwrite a cell. -/
def hSet (h : Heap) (r : Nat) (v : List Msg) : Heap := h.set r v

/-- Allocate a fresh cell holding v. -/
def hAlloc (h : Heap) (v : List Msg) : Heap × Nat := (h ++ [v], h.length)

/-- In-place append to the cell at r (Python list.append). -/
def hAppend (h : Heap) (r : Nat) (m : Msg) : Heap := hSet h r (hGet h r ++ [m])

/-- The API-call part of the heap embedding (mirrors stage1Call; the
assistant message is appended in place to the current-history cell). -/
def stage1CallHeap (env : Stage1Env) (expectedKey : String) (pageNumber : Nat)
    (h : Heap) (cur : Nat) : (Option Json × Nat × Option String) × Heap :=
  match env.api with
  | .exn m =>
      ((none, cur,
        some ("Error during Chat Completions API request for page " ++
          toString pageNumber ++ ": " ++ m)), h)
  | .content raw parsed =>
      let h2 := hAppend h cur ⟨"assistant", raw⟩
      match parsed with
      | none =>
          ((none, cur,
            some ("Error parsing JSON response for page " ++ toString pageNumber)), h2)
      | some j =>
          if validPage j expectedKey pageNumber then ((some j, cur, none), h2)
          else
            ((none, cur,
              some ("Error parsing JSON response for page " ++ toString pageNumber)), h2)

/-- Heap embedding of openai_api.generate_single_page_structure: the input
history is the cell at histRef; line 80 copies it into a fresh cell; page 1
rebinds the local variable to a fresh two-message list; later pages append
the next-page request in place to the copy.  All early error returns hand
back histRef itself (the original object), the later ones the current
cell. -/
def generate_single_page_structure_heap (cfg : Config) (env : Stage1Env)
    (pageNumber : Nat) (styleType : String) (h : Heap) (histRef : Nat) :
    (Option Json × Nat × Option String) × Heap :=
  if !(cfg.checkOk && cfg.clientSome) then
    ((none, histRef, some "API key not configured or client not initialized."), h)
  else if !cfg.promptsLoaded then
    ((none, histRef, some "Prompts could not be loaded."), h)
  else
    let a := hAlloc h (hGet h histRef)
    match stage1SystemMsg cfg styleType with
    | none =>
        ((none, histRef,
          some ("Could not find prompt key " ++ stage1PromptKey styleType ++
            " in prompts.json")), a.1)
    | some systemMsg =>
        if pageNumber == 1 then
          match env.fmtResult with
          | .error err =>
              ((none, a.2,
                some ("Error during Chat Completions API request for page " ++
                  toString pageNumber ++ ": " ++ err)), a.1)
          | .ok userPrompt =>
              let b := hAlloc a.1 [⟨"system", systemMsg⟩, ⟨"user", userPrompt⟩]
              stage1CallHeap env (expectedTextKey styleType) pageNumber b.1 b.2
        else
          let h2 := hAppend a.1 a.2 ⟨"user", nextPageRequest pageNumber⟩
          stage1CallHeap env (expectedTextKey styleType) pageNumber h2 a.2

def exclusiveData {α : Type} (d : Option α) (err : Option String) : Prop :=
  (d.isSome = true ∧ err = none) ∨ (d = none ∧ err.isSome = true)

def assistantSuffix (env : Stage1Env) : List Msg :=
  match env.api with
  | .content raw _ => [⟨"assistant", raw⟩]
  | .exn _ => []

def C9_claim : Prop :=
  ∀ (cfg : Config) (env : Stage1Env) (pageNumber : Nat) (styleType : String)
    (h : Heap) (r : Nat), r < h.length →
    hGet (generate_single_page_structure_heap cfg env pageNumber styleType h r).2 r
      = hGet h r ∧
    (1 < pageNumber →
      hGet (generate_single_page_structure_heap cfg env pageNumber styleType h r).2
          (generate_single_page_structure_heap cfg env pageNumber styleType h r).1.2.1
        = hGet h r ++ [⟨"user", nextPageRequest pageNumber⟩] ++ assistantSuffix env) ∧
    (pageNumber = 1 →
      ∃ sys usr,
        hGet (generate_single_page_structure_heap cfg env pageNumber styleType h r).2
            (generate_single_page_structure_heap cfg env pageNumber styleType h r).1.2.1
          = [⟨"system", sys⟩, ⟨"user", usr⟩])

def sampleCfg : Config := ⟨true, true, true, some "SYS", none⟩

def samplePage (n : Int) : Json :=
  Json.obj [("page_number", Json.num n), ("scene_description", Json.str "sc"),
    ("page_text", Json.str "tx")]

def sampleS1 (n : Int) : Stage1Env :=
  ⟨.ok "U", .content "RAW" (some (samplePage n))⟩

def C1_claim : Prop :=
  ∀ (cfg : Config) (styleType : String) (bookTitle : String)
    (coverEnv : CoverEnv) (pageEnvs : List PageEnv) (p : Nat) (c : ImgCall)
    (ok : Bool),
    Ev.imgCall p c ok ∈ create_book_run cfg styleType true bookTitle coverEnv pageEnvs →
    ∃ inp pr, c = ImgCall.edit inp pr

def stage2InputE (consistency : Bool) (p : Nat) (cover prev : Option Img) :
    Option Img :=
  if consistency then inputForEditAt p cover prev else none

def stage2FirstCall (cfg : Config) (consistency : Bool) (cover : Option Img)
    (e : PageEnv) (p : Nat) (st1 : CBState) (pr : String) :
    ImgCall × (Option Img × Option String) :=
  pageImageCall cfg consistency (stage2InputE consistency p cover st1.prevImage)
    pr (takeOutcome e.imgResults).1

def stage2Loop (cfg : Config) (consistency : Bool) (cover : Option Img)
    (e : PageEnv) (p : Nat) (st1 : CBState) (pr : String) :
    Option Img × List Ev :=
  imageRetryLoop cfg p consistency
    (stage2InputE consistency p cover st1.prevImage) e.userInputs
    (takeOutcome e.imgResults).2 (stage2FirstCall cfg consistency cover e p st1 pr).2

def stage2FallbackSpec (evs : List Ev) (p : Nat) : Prop :=
  ∀ inp pr, Ev.imgCall p (.edit inp pr) false ∈ evs →
    (∃ ok, Ev.imgCall p (.gen pr) ok ∈ evs) ∧
    ((∀ fn d ok2, Ev.pageSave p fn d ok2 ∉ evs) →
      Ev.imgCall p (.gen pr) false ∈ evs)

def C2_claim : Prop :=
  (∀ (cfg : Config) (consistency : Bool) (bookDir : String) (cover : Option Img)
    (e : PageEnv) (p : Nat) (st1 : CBState),
    stage2FallbackSpec (pageStage2 cfg consistency bookDir cover e p st1).1 p) ∧
  (∀ (cfg : Config) (style : String) (consistency : Bool) (bookDir : String)
    (ae : ApiPageEnv) (p : Nat) (st : CBState),
    stage2FallbackSpec (apiPageStep cfg style consistency bookDir ae p st).1 p)

def evPage : Ev → Nat
  | .coverCall _ _ => 0
  | .coverSave _ _ => 0
  | .stage1 p _ => p
  | .imgCall p _ _ => p
  | .pageSave p _ _ _ => p

def evRank : Ev → Nat
  | .coverCall _ _ => 0
  | .coverSave _ _ => 1
  | .stage1 _ _ => 0
  | .imgCall _ _ _ => 1
  | .pageSave _ _ _ _ => 2

def evKeyLe (a b : Ev) : Prop :=
  evPage a < evPage b ∨ (evPage a = evPage b ∧ evRank a ≤ evRank b)

def C7_claim : Prop :=
  ∀ (cfg : Config) (style : String) (consistency : Bool) (bookTitle : String)
    (coverEnv : CoverEnv) (pageEnvs : List PageEnv) (q : Nat) (fn : String)
    (d : Img) (ok : Bool),
    Ev.pageSave q fn d ok ∈
      create_book_run cfg style consistency bookTitle coverEnv pageEnvs →
    ∃ s : String, s.length = 2 ∧
      fn = "output_books/" ++ sanitize_filename bookTitle ++ "/page_" ++ s ++ ".png"

/-! ## Theorems -/

/-- The API-call part of Stage 1 returns data exactly when it returns no
error. -/
lemma stage1Call_exclusive (env : Stage1Env) (k : String) (p : Nat)
    (cur : List Msg) :
    exclusiveData (stage1Call env k p cur).1 (stage1Call env k p cur).2.2 := by
  unfold stage1Call exclusiveData
  repeat' split
  all_goals first
    | exact Or.inl ⟨rfl, rfl⟩
    | exact Or.inr ⟨rfl, rfl⟩

/-- The image wrapper returns data exactly when it returns no error. -/
lemma generate_image_exclusive (cfg : Config) (o : HttpOutcome) (prompt : String) :
    exclusiveData (generate_image_from_prompt cfg o prompt).1
      (generate_image_from_prompt cfg o prompt).2 := by
  unfold generate_image_from_prompt exclusiveData
  repeat' split
  all_goals first
    | exact Or.inl ⟨rfl, rfl⟩
    | exact Or.inr ⟨rfl, rfl⟩

/-- Stage 1 returns data exactly when it returns no error. -/
lemma gsps_exclusive (cfg : Config) (env : Stage1Env) (p : Nat)
    (hist : List Msg) (style : String) :
    exclusiveData (generate_single_page_structure cfg env p hist style).1
      (generate_single_page_structure cfg env p hist style).2.2 := by
  unfold generate_single_page_structure
  repeat' split
  all_goals first
    | exact Or.inl ⟨rfl, rfl⟩
    | exact Or.inr ⟨rfl, rfl⟩
    | apply stage1Call_exclusive

/-- Character inference returns data exactly when it returns no error. -/
lemma infer_characters_exclusive (cfg : Config) (co : ChatOutcome) :
    exclusiveData (infer_characters cfg co).1 (infer_characters cfg co).2 := by
  unfold infer_characters exclusiveData
  repeat' split
  all_goals first
    | exact Or.inl ⟨rfl, rfl⟩
    | exact Or.inr ⟨rfl, rfl⟩

/-- C3: every API-call wrapper in openai_api returns a (data, error) pair
with exactly one component None: data present and error None on success,
data None and an error message on any failure.  (The Stage 1 wrapper also
returns the updated history between the two.) -/
theorem C3_wrappers_exclusive (cfg : Config) (o : HttpOutcome) (prompt : String)
    (env : Stage1Env) (p : Nat) (hist : List Msg) (style : String)
    (co : ChatOutcome) :
    exclusiveData (generate_image_from_prompt cfg o prompt).1
      (generate_image_from_prompt cfg o prompt).2 ∧
    exclusiveData (generate_single_page_structure cfg env p hist style).1
      (generate_single_page_structure cfg env p hist style).2.2 ∧
    exclusiveData (infer_characters cfg co).1 (infer_characters cfg co).2 :=
  ⟨generate_image_exclusive cfg o prompt, gsps_exclusive cfg env p hist style,
   infer_characters_exclusive cfg co⟩

/-- The API-call part of Stage 1 yields a page object exactly when the call
returned content that parsed to that object and it validates. -/
lemma stage1Call_data_some (env : Stage1Env) (k : String) (p : Nat)
    (cur : List Msg) (j : Json) :
    (stage1Call env k p cur).1 = some j ↔
      (∃ raw, env.api = .content raw (some j) ∧ validPage j k p = true) := by
  unfold stage1Call
  cases henv : env.api with
  | exn m => simp
  | content raw parsed =>
    cases parsed with
    | none => simp
    | some j2 =>
      dsimp only
      by_cases hv : validPage j2 k p = true
      · rw [if_pos hv]
        constructor
        · intro h
          have hj : j2 = j := Option.some.inj h
          subst hj
          exact ⟨raw, rfl, hv⟩
        · rintro ⟨raw2, hc, hv2⟩
          have h2 : (some j2 : Option Json) = some j := by
            injection hc with hr hp
          have hj : j2 = j := Option.some.inj h2
          subst hj
          rfl
      · rw [if_neg hv]
        constructor
        · intro h
          exact absurd h (by simp)
        · rintro ⟨raw2, hc, hv2⟩
          have h2 : (some j2 : Option Json) = some j := by
            injection hc with hr hp
          have hj : j2 = j := Option.some.inj h2
          subst hj
          exact absurd hv2 hv

/-- Stage 1 yields a page object only from a call that returned content
parsing to that object and validating against the requested page. -/
lemma gsps_data_some (cfg : Config) (env : Stage1Env) (p : Nat)
    (hist : List Msg) (style : String) (j : Json) :
    (generate_single_page_structure cfg env p hist style).1 = some j →
      ∃ raw, env.api = .content raw (some j) ∧
        validPage j (expectedTextKey style) p = true := by
  intro h
  unfold generate_single_page_structure at h
  repeat' split at h
  all_goals first
    | exact (stage1Call_data_some env _ p _ j).mp h
    | simp at h

/-- C4: the Stage 1 call returns page data only when the response parses as
a JSON object containing page_number equal to the requested page, a
scene_description, and the style-appropriate text key (page_text for
childrens, script_text for narrative); a response not of this shape yields
no data and an error message; and with the module configured, a response of
this shape does yield exactly the parsed object. -/
theorem C4_stage1_validation (cfg : Config) (env : Stage1Env) (p : Nat)
    (hist : List Msg) (style : String) :
    expectedTextKey "childrens" = "page_text" ∧
    expectedTextKey "narrative" = "script_text" ∧
    (∀ j, (generate_single_page_structure cfg env p hist style).1 = some j →
      ∃ raw, env.api = .content raw (some j) ∧
        validPage j (expectedTextKey style) p = true) ∧
    ((∀ raw j, env.api = ChatOutcome.content raw (some j) →
        validPage j (expectedTextKey style) p = false) →
      (generate_single_page_structure cfg env p hist style).1 = none ∧
      ((generate_single_page_structure cfg env p hist style).2.2).isSome = true) ∧
    (cfg.checkOk = true → cfg.clientSome = true → cfg.promptsLoaded = true →
      ∀ sys, stage1SystemMsg cfg style = some sys →
      ∀ u, (p = 1 → env.fmtResult = .ok u) →
      ∀ raw j, env.api = .content raw (some j) →
        validPage j (expectedTextKey style) p = true →
        (generate_single_page_structure cfg env p hist style).1 = some j) := by
  refine ⟨rfl, rfl, gsps_data_some cfg env p hist style, ?_, ?_⟩
  · intro hshape
    have hd : (generate_single_page_structure cfg env p hist style).1 = none := by
      cases hdata : (generate_single_page_structure cfg env p hist style).1 with
      | none => rfl
      | some j =>
          obtain ⟨raw, hapi, hv⟩ := gsps_data_some cfg env p hist style j hdata
          rw [hshape raw j hapi] at hv
          cases hv
    refine ⟨hd, ?_⟩
    rcases gsps_exclusive cfg env p hist style with ⟨hs, _⟩ | ⟨_, he⟩
    · rw [hd] at hs
      cases hs
    · exact he
  · intro hchk hcl hpl sys hsys u hfmt raw j hapi hv
    unfold generate_single_page_structure
    rw [hchk, hcl, hpl, hsys]
    by_cases hp : p = 1
    · subst hp
      rw [hfmt rfl]
      simp only [beq_self_eq_true, if_true]
      exact (stage1Call_data_some env _ 1 _ j).mpr ⟨raw, hapi, hv⟩
    · have hpb : (p == 1) = false := by
        simp [hp]
      simp only [hpb, Bool.and_self, Bool.not_true, Bool.false_eq_true, if_false]
      exact (stage1Call_data_some env _ p _ j).mpr ⟨raw, hapi, hv⟩

/-- Witness for C4: a configured environment whose response is a valid
childrens page object for page 1 yields exactly that object. -/
theorem C4_stage1_validation_witness :
    (generate_single_page_structure
        ⟨true, true, true, some "SYS", none⟩
        ⟨.ok "U", .content "RAW" (some (Json.obj
          [("page_number", Json.num 1), ("scene_description", Json.str "s"),
           ("page_text", Json.str "t")]))⟩
        1 [] "childrens").1 =
      some (Json.obj
        [("page_number", Json.num 1), ("scene_description", Json.str "s"),
         ("page_text", Json.str "t")]) :=
  (C4_stage1_validation ⟨true, true, true, some "SYS", none⟩
      ⟨.ok "U", .content "RAW" (some (Json.obj
        [("page_number", Json.num 1), ("scene_description", Json.str "s"),
         ("page_text", Json.str "t")]))⟩
      1 [] "childrens").2.2.2.2 rfl rfl rfl "SYS" rfl "U"
    (fun _ => rfl) "RAW"
    (Json.obj
      [("page_number", Json.num 1), ("scene_description", Json.str "s"),
       ("page_text", Json.str "t")]) rfl rfl

/-- Characters of the run-collapsing substitution are underscores or
non-class characters of the input. -/
lemma collapseAux_mem (l : List Char) (c : Char) :
    ∀ b, c ∈ collapseAux b l → c = '_' ∨ (c ∈ l ∧ replacedClass c = false) := by
  induction l with
  | nil =>
      intro b h
      simp [collapseAux] at h
  | cons a t ih =>
      intro b h
      by_cases ha : replacedClass a = true
      · cases b with
        | true =>
            simp only [collapseAux, ha, if_true] at h
            rcases ih true h with h1 | ⟨h2, h3⟩
            · exact Or.inl h1
            · exact Or.inr ⟨List.mem_cons_of_mem _ h2, h3⟩
        | false =>
            simp only [collapseAux, ha, if_true] at h
            rcases List.mem_cons.mp h with h1 | h1
            · exact Or.inl h1
            · rcases ih true h1 with h2 | ⟨h3, h4⟩
              · exact Or.inl h2
              · exact Or.inr ⟨List.mem_cons_of_mem _ h3, h4⟩
      · have ha2 : replacedClass a = false := by
          simpa using ha
        simp only [collapseAux, ha2, Bool.false_eq_true, if_false] at h
        rcases List.mem_cons.mp h with h1 | h1
        · subst h1
          exact Or.inr ⟨List.mem_cons_self _ _, ha2⟩
        · rcases ih false h1 with h2 | ⟨h3, h4⟩
          · exact Or.inl h2
          · exact Or.inr ⟨List.mem_cons_of_mem _ h3, h4⟩

/-- Inside a run of class characters the substitution emits nothing
further. -/
lemma collapseAux_true_all_class (run t : List Char)
    (hrun : ∀ c ∈ run, replacedClass c = true) :
    collapseAux true (run ++ t) = collapseAux true t := by
  induction run with
  | nil => rfl
  | cons a r ih =>
      have ha : replacedClass a = true := hrun a (List.mem_cons_self _ _)
      simp only [List.cons_append, collapseAux, ha, if_true]
      exact ih (fun c hc => hrun c (List.mem_cons_of_mem _ hc))

/-- After a run ends, the in-run flag makes no difference when the next
character is not in the class (or the input is exhausted). -/
lemma collapseAux_true_eq_false (t : List Char)
    (ht : t = [] ∨ ∃ c t2, t = c :: t2 ∧ replacedClass c = false) :
    collapseAux true t = collapseAux false t := by
  rcases ht with h | ⟨c, t2, h, hc⟩
  · subst h
    rfl
  · subst h
    simp only [collapseAux, hc, Bool.false_eq_true, if_false]

/-- C10: sanitize_filename returns at most 100 characters, none of which is
an invalid filename character or a whitespace/punctuation-class character;
and the substitution replaces each maximal run of class characters by a
single underscore while leaving other characters unchanged. -/
theorem C10_sanitize_filename (s : String) :
    (sanitize_filename s).length ≤ 100 ∧
    (∀ c ∈ (sanitize_filename s).data,
      invalidFilenameChars.contains c = false ∧ replacedClass c = false) ∧
    (∀ run t, run ≠ [] → (∀ c ∈ run, replacedClass c = true) →
      (t = [] ∨ ∃ c t2, t = c :: t2 ∧ replacedClass c = false) →
      collapseRuns (run ++ t) = '_' :: collapseRuns t) ∧
    (∀ c t, replacedClass c = false → collapseRuns (c :: t) = c :: collapseRuns t) := by
  refine ⟨?_, ?_, ?_, ?_⟩
  · show ((collapseRuns _).take 100).length ≤ 100
    rw [List.length_take]
    exact min_le_left _ _
  · intro c hc
    have h1 : c ∈ collapseRuns (s.data.filter fun c => !invalidFilenameChars.contains c) :=
      List.take_subset _ _ hc
    rcases collapseAux_mem _ c false h1 with h2 | ⟨h3, h4⟩
    · subst h2
      exact ⟨by decide, by decide⟩
    · refine ⟨?_, h4⟩
      have h5 := (List.mem_filter.mp h3).2
      simpa using h5
  · intro run t hne hrun ht
    rcases run with _ | ⟨r0, run2⟩
    · exact absurd rfl hne
    · have hr0 : replacedClass r0 = true := hrun r0 (List.mem_cons_self _ _)
      show collapseAux false (r0 :: (run2 ++ t)) = '_' :: collapseAux false t
      simp only [collapseAux, hr0, if_true, Bool.false_eq_true, if_false]
      rw [collapseAux_true_all_class run2 t
          (fun c hc => hrun c (List.mem_cons_of_mem _ hc)),
        collapseAux_true_eq_false t ht]
  · intro c t hc
    show collapseAux false (c :: t) = c :: collapseAux false t
    simp only [collapseAux, hc, Bool.false_eq_true, if_false]

/-- Witness for C10 at a concrete input: the file name is sanitized as
described, and a concrete run collapses to one underscore. -/
theorem C10_sanitize_filename_witness :
    (sanitize_filename "A Test: Book, featuring?!").length ≤ 100 ∧
    (invalidFilenameChars.contains 'A' = false ∧ replacedClass 'A' = false) ∧
    collapseRuns ([' ', '.', '!'] ++ ['x']) = '_' :: collapseRuns ['x'] ∧
    collapseRuns ['x', ' '] = 'x' :: collapseRuns [' '] := by
  refine ⟨(C10_sanitize_filename "A Test: Book, featuring?!").1, ?_, ?_, ?_⟩
  · exact (C10_sanitize_filename "A Test: Book, featuring?!").2.1 'A' (by decide)
  · exact (C10_sanitize_filename "A").2.2.1 [' ', '.', '!'] ['x'] (by decide)
      (by decide) (Or.inr ⟨'x', [], rfl, by decide⟩)
  · exact (C10_sanitize_filename "A").2.2.2 'x' [' '] (by decide)

/-- The assistant message appended to the history when the chat call
returns content (nothing is appended when it raises). -/
lemma hGet_hSet_self (h : Heap) (r : Nat) (v : List Msg) (hr : r < h.length) :
    hGet (hSet h r v) r = v := by
  induction h generalizing r with
  | nil => simp at hr
  | cons a t ih =>
      cases r with
      | zero => rfl
      | succ r2 => exact ih r2 (Nat.lt_of_succ_lt_succ hr)

lemma hGet_hSet_ne (h : Heap) (r : Nat) (v : List Msg) (r2 : Nat)
    (hne : r ≠ r2) : hGet (hSet h r v) r2 = hGet h r2 := by
  induction h generalizing r r2 with
  | nil => rfl
  | cons a t ih =>
      cases r with
      | zero =>
          cases r2 with
          | zero => exact absurd rfl hne
          | succ => rfl
      | succ rr =>
          cases r2 with
          | zero => rfl
          | succ r3 => exact ih rr r3 (fun he => hne (by rw [he]))

lemma hGet_hAlloc_lt (h : Heap) (v : List Msg) (r : Nat) (hr : r < h.length) :
    hGet (hAlloc h v).1 r = hGet h r :=
  List.getD_append h [v] [] r hr

lemma hGet_hAlloc_new (h : Heap) (v : List Msg) :
    hGet (hAlloc h v).1 (hAlloc h v).2 = v := by
  show hGet (h ++ [v]) h.length = v
  unfold hGet
  rw [List.getD_append_right h [v] [] h.length (Nat.le_refl _), Nat.sub_self]
  rfl

lemma hAlloc_fst_length (h : Heap) (v : List Msg) :
    (hAlloc h v).1.length = h.length + 1 := by
  simp [hAlloc]

lemma hGet_hAppend_ne (h : Heap) (t : Nat) (m : Msg) (r : Nat) (hne : t ≠ r) :
    hGet (hAppend h t m) r = hGet h r :=
  hGet_hSet_ne h t _ r hne

lemma hGet_hAppend_self (h : Heap) (t : Nat) (m : Msg) (ht : t < h.length) :
    hGet (hAppend h t m) t = hGet h t ++ [m] :=
  hGet_hSet_self h t _ ht

lemma hAppend_length (h : Heap) (t : Nat) (m : Msg) :
    (hAppend h t m).length = h.length := by
  simp [hAppend, hSet]

/-- The heap Stage 1 call always hands back the current-history
reference. -/
lemma stage1CallHeap_ref (env : Stage1Env) (k : String) (p : Nat) (h : Heap)
    (cur : Nat) : (stage1CallHeap env k p h cur).1.2.1 = cur := by
  unfold stage1CallHeap
  repeat' split
  all_goals rfl

/-- The heap Stage 1 call touches no cell other than the current one. -/
lemma stage1CallHeap_get_ne (env : Stage1Env) (k : String) (p : Nat) (h : Heap)
    (cur : Nat) (r : Nat) (hne : cur ≠ r) :
    hGet (stage1CallHeap env k p h cur).2 r = hGet h r := by
  unfold stage1CallHeap
  repeat' split
  all_goals first
    | rfl
    | exact hGet_hAppend_ne _ _ _ _ hne

/-- The heap Stage 1 call appends exactly the assistant suffix to the
current cell. -/
lemma stage1CallHeap_get_cur (env : Stage1Env) (k : String) (p : Nat) (h : Heap)
    (cur : Nat) (hc : cur < h.length) :
    hGet (stage1CallHeap env k p h cur).2 cur = hGet h cur ++ assistantSuffix env := by
  unfold stage1CallHeap assistantSuffix
  cases env.api with
  | exn m => simp
  | content raw parsed =>
      cases parsed with
      | none => exact hGet_hAppend_self h cur _ hc
      | some j =>
          dsimp only
          split
          · exact hGet_hAppend_self h cur _ hc
          · exact hGet_hAppend_self h cur _ hc

/-- generate_single_page_structure never mutates the caller's history
cell. -/
lemma gsps_heap_no_mutation (cfg : Config) (env : Stage1Env) (p : Nat)
    (style : String) (h : Heap) (r : Nat) (hr : r < h.length) :
    hGet (generate_single_page_structure_heap cfg env p style h r).2 r = hGet h r := by
  have halloc1 : r < (hAlloc h (hGet h r)).1.length := by
    rw [hAlloc_fst_length]
    exact Nat.lt_succ_of_lt hr
  have hcurne : (hAlloc h (hGet h r)).2 ≠ r := by
    show h.length ≠ r
    exact Nat.ne_of_gt hr
  unfold generate_single_page_structure_heap
  repeat' split
  all_goals first
    | rfl
    | exact hGet_hAlloc_lt h _ r hr
    | skip
  · -- page 1, formatting succeeded: a second fresh cell is allocated
    rw [stage1CallHeap_get_ne]
    · rw [hGet_hAlloc_lt _ _ r halloc1]
      exact hGet_hAlloc_lt h _ r hr
    · show (hAlloc h (hGet h r)).1.length ≠ r
      rw [hAlloc_fst_length]
      exact Nat.ne_of_gt (Nat.lt_succ_of_lt hr)
  · -- later page: the user request is appended to the copy
    rw [stage1CallHeap_get_ne _ _ _ _ _ _ hcurne]
    rw [hGet_hAppend_ne _ _ _ _ hcurne]
    exact hGet_hAlloc_lt h _ r hr

/-- With the module configured, the history cell handed back is fresh and
holds exactly the documented contents. -/
lemma gsps_heap_history (cfg : Config) (env : Stage1Env) (p : Nat)
    (style : String) (h : Heap) (r : Nat) (hr : r < h.length)
    (hchk : cfg.checkOk = true) (hcl : cfg.clientSome = true)
    (hpl : cfg.promptsLoaded = true) (sys : String)
    (hsys : stage1SystemMsg cfg style = some sys) :
    (1 < p →
      (generate_single_page_structure_heap cfg env p style h r).1.2.1 ≠ r ∧
      hGet (generate_single_page_structure_heap cfg env p style h r).2
          (generate_single_page_structure_heap cfg env p style h r).1.2.1
        = hGet h r ++ [⟨"user", nextPageRequest p⟩] ++ assistantSuffix env) ∧
    (p = 1 → ∀ usr, env.fmtResult = .ok usr →
      (generate_single_page_structure_heap cfg env p style h r).1.2.1 ≠ r ∧
      hGet (generate_single_page_structure_heap cfg env p style h r).2
          (generate_single_page_structure_heap cfg env p style h r).1.2.1
        = [⟨"system", sys⟩, ⟨"user", usr⟩] ++ assistantSuffix env) := by
  unfold generate_single_page_structure_heap
  rw [hchk, hcl, hpl, hsys]
  constructor
  · intro hp
    have hpb : (p == 1) = false := by
      simp [Nat.ne_of_gt hp]
    simp only [Bool.and_self, Bool.not_true, Bool.false_eq_true, if_false, hpb]
    rw [stage1CallHeap_ref]
    constructor
    · show (hAlloc h (hGet h r)).2 ≠ r
      exact Nat.ne_of_gt hr
    · rw [stage1CallHeap_get_cur]
      · rw [hGet_hAppend_self]
        · rw [hGet_hAlloc_new]
        · show (hAlloc h (hGet h r)).2 < (hAlloc h (hGet h r)).1.length
          rw [hAlloc_fst_length]
          exact Nat.lt_succ_self _
      · rw [hAppend_length, hAlloc_fst_length]
        exact Nat.lt_succ_self _
  · intro hp usr hfmt
    subst hp
    rw [hfmt]
    simp only [Bool.and_self, Bool.not_true, Bool.false_eq_true, if_false,
      beq_self_eq_true, if_true]
    rw [stage1CallHeap_ref]
    constructor
    · show (hAlloc (hAlloc h (hGet h r)).1 _).2 ≠ r
      rw [show (hAlloc (hAlloc h (hGet h r)).1
          [⟨"system", sys⟩, ⟨"user", usr⟩]).2 = (hAlloc h (hGet h r)).1.length from rfl]
      rw [hAlloc_fst_length]
      exact Nat.ne_of_gt (Nat.lt_succ_of_lt hr)
    · rw [stage1CallHeap_get_cur]
      · rw [hGet_hAlloc_new]
      · rw [hAlloc_fst_length]
        exact Nat.lt_succ_self _

/-- C9 counterexample: with the module configured and the chat call
returning content, the page-1 history handed back is system message, user
prompt AND the assistant response: three messages, not the claimed two. -/
theorem C9_counterexample : ¬ C9_claim := by
  intro hcl
  have h3 := (hcl ⟨true, true, true, some "S", none⟩
    ⟨.ok "U", .content "A" none⟩ 1 "childrens" [[]] 0 (by decide)).2.2 rfl
  have hcomp :
      hGet (generate_single_page_structure_heap ⟨true, true, true, some "S", none⟩
          ⟨.ok "U", .content "A" none⟩ 1 "childrens" [[]] 0).2
        (generate_single_page_structure_heap ⟨true, true, true, some "S", none⟩
          ⟨.ok "U", .content "A" none⟩ 1 "childrens" [[]] 0).1.2.1
        = [⟨"system", "S"⟩, ⟨"user", "U"⟩, ⟨"assistant", "A"⟩] := rfl
  rw [hcomp] at h3
  rcases h3 with ⟨sys, usr, heq⟩
  simp at heq

/-- C9 (amended): generate_single_page_structure never mutates the history
list passed to it (it copies it); and when the API key, client, prompts and
prompt entry are available, for a later page the returned history object is
fresh and holds the input extended by the new user request plus, when the
call returns, the assistant response, while for page 1 (with the initial
prompt formatted) it is a fresh list of the system message and initial user
prompt plus, when the call returns, the assistant response. -/
theorem C9_no_mutation_and_history :
    (∀ (cfg : Config) (env : Stage1Env) (p : Nat) (style : String)
      (h : Heap) (r : Nat), r < h.length →
      hGet (generate_single_page_structure_heap cfg env p style h r).2 r = hGet h r) ∧
    (∀ (cfg : Config) (env : Stage1Env) (p : Nat) (style : String)
      (h : Heap) (r : Nat), r < h.length →
      cfg.checkOk = true → cfg.clientSome = true → cfg.promptsLoaded = true →
      ∀ sys, stage1SystemMsg cfg style = some sys →
      (1 < p →
        (generate_single_page_structure_heap cfg env p style h r).1.2.1 ≠ r ∧
        hGet (generate_single_page_structure_heap cfg env p style h r).2
            (generate_single_page_structure_heap cfg env p style h r).1.2.1
          = hGet h r ++ [⟨"user", nextPageRequest p⟩] ++ assistantSuffix env) ∧
      (p = 1 → ∀ usr, env.fmtResult = .ok usr →
        (generate_single_page_structure_heap cfg env p style h r).1.2.1 ≠ r ∧
        hGet (generate_single_page_structure_heap cfg env p style h r).2
            (generate_single_page_structure_heap cfg env p style h r).1.2.1
          = [⟨"system", sys⟩, ⟨"user", usr⟩] ++ assistantSuffix env)) :=
  ⟨gsps_heap_no_mutation,
   fun cfg env p style h r hr hchk hcl hpl sys hsys =>
     gsps_heap_history cfg env p style h r hr hchk hcl hpl sys hsys⟩

/-- Witness for C9 at a concrete heap: the input cell is untouched and the
page-2 history is the copy extended by the user request and the assistant
response. -/
theorem C9_no_mutation_and_history_witness :
    hGet (generate_single_page_structure_heap ⟨true, true, true, some "S", none⟩
        ⟨.ok "U", .content "A" none⟩ 2 "childrens" [[⟨"system", "S"⟩]] 0).2 0
      = [⟨"system", "S"⟩] ∧
    hGet (generate_single_page_structure_heap ⟨true, true, true, some "S", none⟩
        ⟨.ok "U", .content "A" none⟩ 2 "childrens" [[⟨"system", "S"⟩]] 0).2
      (generate_single_page_structure_heap ⟨true, true, true, some "S", none⟩
        ⟨.ok "U", .content "A" none⟩ 2 "childrens" [[⟨"system", "S"⟩]] 0).1.2.1
      = [⟨"system", "S"⟩] ++ [⟨"user", nextPageRequest 2⟩] ++
        [⟨"assistant", "A"⟩] := by
  constructor
  · exact C9_no_mutation_and_history.1 ⟨true, true, true, some "S", none⟩
      ⟨.ok "U", .content "A" none⟩ 2 "childrens" [[⟨"system", "S"⟩]] 0 (by decide)
  · exact (C9_no_mutation_and_history.2 ⟨true, true, true, some "S", none⟩
      ⟨.ok "U", .content "A" none⟩ 2 "childrens" [[⟨"system", "S"⟩]] 0 (by decide)
      rfl rfl rfl "S" rfl).1 (by decide) |>.2

/-- The Stage 2 call issued by create_book.py: edit exactly when consistency
mode is on and a truthy input image is at hand. -/
lemma pageImageCall_call (cfg : Config) (consistency : Bool)
    (inputE : Option Img) (prompt : String) (o : HttpOutcome) :
    (pageImageCall cfg consistency inputE prompt o).1 =
      if consistency && imgTruthy inputE then .edit (inputE.getD []) prompt
      else .gen prompt := by
  cases consistency with
  | false => cases inputE <;> rfl
  | true =>
      cases inputE with
      | none => rfl
      | some inp =>
          unfold pageImageCall imgTruthy
          cases him : inp.isEmpty <;> simp [him]

/-- The Stage 2 call of a page always carries the prompt it was given. -/
lemma pageImageCall_prompt (cfg : Config) (consistency : Bool)
    (inputE : Option Img) (prompt : String) (o : HttpOutcome) :
    callPrompt (pageImageCall cfg consistency inputE prompt o).1 = prompt := by
  rw [pageImageCall_call]
  split <;> rfl

/-- Every event of the interactive retry loop is a Stage 2 call for this
page whose prompt is one of the console inputs. -/
lemma imageRetryLoop_mem (cfg : Config) (p : Nat) (consistency : Bool)
    (inputE : Option Img) :
    ∀ (users : List String) (outs : List HttpOutcome)
      (res : Option Img × Option String) (ev : Ev),
      ev ∈ (imageRetryLoop cfg p consistency inputE users outs res).2 →
      ∃ c ok, ev = Ev.imgCall p c ok ∧ callPrompt c ∈ users := by
  intro users
  induction users with
  | nil =>
      intro outs res ev h
      rcases res with ⟨d, err⟩
      cases err <;> simp [imageRetryLoop] at h
  | cons u us ih =>
      intro outs res ev h
      rcases res with ⟨d, err⟩
      cases err with
      | none => simp [imageRetryLoop] at h
      | some msg =>
          rw [imageRetryLoop] at h
          by_cases hu : (pyUpper u == "SKIP") = true
          · rw [if_pos hu] at h
            simp at h
          · rw [if_neg hu] at h
            rcases List.mem_cons.mp h with h1 | h1
            · subst h1
              exact ⟨_, _, rfl, by
                rw [pageImageCall_prompt]
                exact List.mem_cons_self _ _⟩
            · rcases ih _ _ ev h1 with ⟨c, ok, hev, hpr⟩
              exact ⟨c, ok, hev, List.mem_cons_of_mem _ hpr⟩

/-- Every event of the cover retry loop is a cover call whose prompt is one
of the console inputs. -/
lemma coverRetryLoop_mem (cfg : Config) :
    ∀ (users : List String) (outs : List HttpOutcome)
      (res : Option Img × Option String) (ev : Ev),
      ev ∈ (coverRetryLoop cfg users outs res).2 →
      ∃ u ok, u ∈ users ∧ ev = Ev.coverCall u ok := by
  intro users
  induction users with
  | nil =>
      intro outs res ev h
      rcases res with ⟨d, err⟩
      cases err <;> simp [coverRetryLoop] at h
  | cons u us ih =>
      intro outs res ev h
      rcases res with ⟨d, err⟩
      cases err with
      | none => simp [coverRetryLoop] at h
      | some msg =>
          rw [coverRetryLoop] at h
          by_cases hu : (pyUpper u == "SKIP") = true
          · rw [if_pos hu] at h
            simp at h
          · rw [if_neg hu] at h
            rcases List.mem_cons.mp h with h1 | h1
            · subst h1
              exact ⟨u, _, List.mem_cons_self _ _, rfl⟩
            · rcases ih _ _ ev h1 with ⟨u2, ok, hu2, hev⟩
              exact ⟨u2, ok, List.mem_cons_of_mem _ hu2, hev⟩

/-- A truthy optional image yields nonempty bytes. -/
lemma imgTruthy_getD_ne (x : Option Img) (hx : imgTruthy x = true) :
    x.getD [] ≠ [] := by
  cases x with
  | none => simp [imgTruthy] at hx
  | some b =>
      cases b with
      | nil => simp [imgTruthy] at hx
      | cons a t => simp

/-- A truthy optional image is the some of its bytes. -/
lemma imgTruthy_some (x : Option Img) (hx : imgTruthy x = true) :
    x = some (x.getD []) := by
  cases x with
  | none => simp [imgTruthy] at hx
  | some b => rfl

/-- Membership in a two-cons list followed by a single appended element. -/
lemma mem_cons_cons_append {α : Type} (ev a b s : α) (l : List α) :
    ev ∈ (a :: b :: l) ++ [s] ↔ ev = a ∨ ev = b ∨ ev ∈ l ∨ ev = s := by
  simp [List.mem_append, List.mem_cons, or_assoc]

/-- C1 counterexample: with consistency enabled but the cover missing, page
1 is produced by a standard generation call. -/
theorem C1_counterexample : ¬ C1_claim := by
  intro hcl
  have h := hcl sampleCfg "childrens" "T" ⟨.error "missing", [], [], true⟩
    [⟨sampleS1 1, .ok "P", [.ok (some [1])], [], true⟩] 1 (.gen "P") true
    (by decide)
  rcases h with ⟨inp, pr, hc⟩
  exact ImgCall.noConfusion hc

/-- Unfolding equation of pageStage2 when the prompt formatting fails. -/
lemma pageStage2_eq_err (cfg : Config) (consistency : Bool) (bookDir : String)
    (cover : Option Img) (e : PageEnv) (p : Nat) (st1 : CBState) (msg : String)
    (hfmt : e.imgFmt = .error msg) :
    pageStage2 cfg consistency bookDir cover e p st1 = ([.stage1 p true], some st1) := by
  unfold pageStage2
  rw [hfmt]

/-- Unfolding equation of pageStage2 when the prompt formatting succeeds. -/
lemma pageStage2_eq_ok (cfg : Config) (consistency : Bool) (bookDir : String)
    (cover : Option Img) (e : PageEnv) (p : Nat) (st1 : CBState) (pr : String)
    (hfmt : e.imgFmt = .ok pr) :
    pageStage2 cfg consistency bookDir cover e p st1 =
      if imgTruthy (stage2Loop cfg consistency cover e p st1 pr).1 then
        ((.stage1 p true ::
            .imgCall p (stage2FirstCall cfg consistency cover e p st1 pr).1
              (stage2FirstCall cfg consistency cover e p st1 pr).2.2.isNone ::
            (stage2Loop cfg consistency cover e p st1 pr).2) ++
          [.pageSave p (pageFilename bookDir p)
            ((stage2Loop cfg consistency cover e p st1 pr).1.getD []) e.saveOk],
          some { st1 with
            prevImage := if e.saveOk && consistency then
                (stage2Loop cfg consistency cover e p st1 pr).1
              else st1.prevImage })
      else
        (.stage1 p true ::
            .imgCall p (stage2FirstCall cfg consistency cover e p st1 pr).1
              (stage2FirstCall cfg consistency cover e p st1 pr).2.2.isNone ::
            (stage2Loop cfg consistency cover e p st1 pr).2,
          some st1) := by
  unfold pageStage2 stage2Loop stage2FirstCall stage2InputE
  rw [hfmt]

/-- C1 (amended): in consistency mode the input image offered for the edit
is the cover for page 1 and the previous successfully saved page image for
later pages; the first Stage 2 call of a page is an edit of that input when
it is truthy and a standard generation otherwise; and the previous-image
state is exactly the image of the last successful save. -/
theorem C1_consistency_edit_chain :
    (∀ (cover prev : Option Img), inputForEditAt 1 cover prev = cover) ∧
    (∀ (p : Nat) (cover prev : Option Img), 2 ≤ p →
      inputForEditAt p cover prev = if imgTruthy prev then prev else none) ∧
    (∀ (cfg : Config) (bookDir : String) (cover : Option Img) (e : PageEnv)
      (p : Nat) (st1 : CBState) (pr : String), e.imgFmt = .ok pr →
      ∃ ok tail,
        (pageStage2 cfg true bookDir cover e p st1).1 =
          .stage1 p true ::
            .imgCall p
              (if imgTruthy (inputForEditAt p cover st1.prevImage) then
                ImgCall.edit ((inputForEditAt p cover st1.prevImage).getD []) pr
              else ImgCall.gen pr) ok :: tail) ∧
    (∀ (cfg : Config) (bookDir : String) (cover : Option Img) (e : PageEnv)
      (p : Nat) (st1 : CBState),
      (∀ fn d, Ev.pageSave p fn d true ∈ (pageStage2 cfg true bookDir cover e p st1).1 →
        (pageStage2 cfg true bookDir cover e p st1).2 =
          some { st1 with prevImage := some d }) ∧
      ((∀ fn d ok, Ev.pageSave p fn d ok ∉ (pageStage2 cfg true bookDir cover e p st1).1) →
        (pageStage2 cfg true bookDir cover e p st1).2 = some st1) ∧
      (∀ fn d, Ev.pageSave p fn d false ∈ (pageStage2 cfg true bookDir cover e p st1).1 →
        (pageStage2 cfg true bookDir cover e p st1).2 = some st1)) := by
  refine ⟨fun cover prev => rfl, ?_, ?_, ?_⟩
  · intro p cover prev hp
    unfold inputForEditAt
    have hpb : (p == 1) = false := by
      have : p ≠ 1 := by omega
      simp [this]
    rw [hpb]
    simp
  · intro cfg bookDir cover e p st1 pr hfmt
    rw [pageStage2_eq_ok cfg true bookDir cover e p st1 pr hfmt]
    have hcall : (stage2FirstCall cfg true cover e p st1 pr).1 =
        if imgTruthy (inputForEditAt p cover st1.prevImage) then
          ImgCall.edit ((inputForEditAt p cover st1.prevImage).getD []) pr
        else ImgCall.gen pr := by
      unfold stage2FirstCall stage2InputE
      rw [pageImageCall_call]
      simp only [Bool.true_and, if_true]
    by_cases htr : imgTruthy (stage2Loop cfg true cover e p st1 pr).1 = true
    · rw [if_pos htr, hcall]
      exact ⟨_, _, rfl⟩
    · rw [if_neg htr, hcall]
      exact ⟨_, _, rfl⟩
  · intro cfg bookDir cover e p st1
    cases hfmt : e.imgFmt with
    | error msg =>
        rw [pageStage2_eq_err cfg true bookDir cover e p st1 msg hfmt]
        refine ⟨?_, fun _ => rfl, ?_⟩
        · intro fn d hmem
          exact Ev.noConfusion (List.mem_singleton.mp hmem)
        · intro fn d hmem
          exact Ev.noConfusion (List.mem_singleton.mp hmem)
    | ok pr =>
        rw [pageStage2_eq_ok cfg true bookDir cover e p st1 pr hfmt]
        by_cases htr : imgTruthy (stage2Loop cfg true cover e p st1 pr).1 = true
        · rw [if_pos htr]
          have hsome : (stage2Loop cfg true cover e p st1 pr).1 =
              some ((stage2Loop cfg true cover e p st1 pr).1.getD []) :=
            imgTruthy_some _ htr
          refine ⟨?_, ?_, ?_⟩
          · intro fn d hmem
            rcases (mem_cons_cons_append _ _ _ _ _).mp hmem with h1 | h1 | h1 | h1
            · exact Ev.noConfusion h1
            · exact Ev.noConfusion h1
            · rcases imageRetryLoop_mem _ _ _ _ _ _ _ _ h1 with ⟨c2, ok2, hev, _⟩
              exact Ev.noConfusion hev
            · injection h1 with hp2 hfn hd hok
              subst hd
              show some _ = some _
              rw [← hok]
              simp only [Bool.and_self, eq_self_iff_true, if_true]
              conv_lhs => rw [hsome]
          · intro hnone
            exact absurd
              ((mem_cons_cons_append _ _ _ _ _).mpr (Or.inr (Or.inr (Or.inr rfl))))
              (hnone (pageFilename bookDir p)
                ((stage2Loop cfg true cover e p st1 pr).1.getD []) e.saveOk)
          · intro fn d hmem
            rcases (mem_cons_cons_append _ _ _ _ _).mp hmem with h1 | h1 | h1 | h1
            · exact Ev.noConfusion h1
            · exact Ev.noConfusion h1
            · rcases imageRetryLoop_mem _ _ _ _ _ _ _ _ h1 with ⟨c2, ok2, hev, _⟩
              exact Ev.noConfusion hev
            · injection h1 with hp2 hfn hd hok
              show some _ = some _
              simp only [← hok, Bool.false_and, Bool.false_eq_true, if_false]
        · rw [if_neg htr]
          refine ⟨?_, fun _ => rfl, ?_⟩
          · intro fn d hmem
            simp only [List.mem_cons] at hmem
            rcases hmem with h1 | h1 | h1
            · exact Ev.noConfusion h1
            · exact Ev.noConfusion h1
            · rcases imageRetryLoop_mem _ _ _ _ _ _ _ _ h1 with ⟨c2, ok2, hev, _⟩
              exact Ev.noConfusion hev
          · intro fn d hmem
            simp only [List.mem_cons] at hmem
            rcases hmem with h1 | h1 | h1
            · exact Ev.noConfusion h1
            · exact Ev.noConfusion h1
            · rcases imageRetryLoop_mem _ _ _ _ _ _ _ _ h1 with ⟨c2, ok2, hev, _⟩
              exact Ev.noConfusion hev

/-- Witness for C1 at concrete inputs: page 1 is offered the cover, page 2
the previous image, and a page-1 run with a truthy cover begins Stage 2
with an edit of the cover. -/
theorem C1_consistency_edit_chain_witness :
    inputForEditAt 1 (some [1]) none = some [1] ∧
    inputForEditAt 2 (some [1]) (some [2]) =
      (if imgTruthy (some [2]) then some [2] else none) ∧
    (∃ ok tail,
      (pageStage2 sampleCfg true "output_books/T" (some [1])
          ⟨sampleS1 1, .ok "P", [.reqExn "boom" none], ["SKIP"], true⟩ 1
          ⟨[], none⟩).1 =
        .stage1 1 true ::
          .imgCall 1
            (if imgTruthy (inputForEditAt 1 (some [1]) (none : Option Img)) then
              ImgCall.edit ((inputForEditAt 1 (some [1]) (none : Option Img)).getD []) "P"
            else ImgCall.gen "P") ok :: tail) :=
  ⟨C1_consistency_edit_chain.1 (some [1]) none,
   C1_consistency_edit_chain.2.1 2 (some [1]) (some [2]) (by decide),
   C1_consistency_edit_chain.2.2.1 sampleCfg "output_books/T" (some [1])
     ⟨sampleS1 1, .ok "P", [.reqExn "boom" none], ["SKIP"], true⟩ 1 ⟨[], none⟩
     "P" rfl⟩

/-- C2 counterexample: in the CLI, a failed edit followed by a SKIP answer
abandons the page image without any standard-generation retry. -/
theorem C2_counterexample : ¬ C2_claim := by
  intro hcl
  have h := hcl.1 sampleCfg true "output_books/T" (some [1])
    ⟨sampleS1 1, .ok "P", [.reqExn "boom" none], ["SKIP"], true⟩ 1 ⟨[], none⟩
  rcases (h [1] "P" (by decide)).1 with ⟨ok, hmem⟩
  cases ok <;> revert hmem <;> decide

/-- C2 (amended): in the web API, an image-edit call that returns an error
is immediately retried as a standard generation with the same prompt, and
the page image is saved exactly when that fallback returns truthy data; in
the CLI, after a Stage 2 error every further call of the page carries a
user-supplied replacement prompt. -/
theorem C2_edit_fallback :
    (∀ (cfg : Config) (bookDir : String) (ae : ApiPageEnv) (p : Nat)
      (st1 : CBState) (pr : String) (inp : Img) (msg : String),
      ae.imgFmt = .ok pr →
      0 < p →
      st1.prevImage = some inp →
      imgTruthy st1.prevImage = true →
      (edit_image_from_prompt cfg (takeOutcome ae.imgResults).1 inp pr).2 = some msg →
      (apiStage2 cfg true bookDir ae p st1).1 =
        [.stage1 p true, .imgCall p (.edit inp pr) false,
          .imgCall p (.gen pr)
            (generate_image_from_prompt cfg
              (takeOutcome (takeOutcome ae.imgResults).2).1 pr).2.isNone] ++
        (if (generate_image_from_prompt cfg
              (takeOutcome (takeOutcome ae.imgResults).2).1 pr).2.isNone &&
            imgTruthy (generate_image_from_prompt cfg
              (takeOutcome (takeOutcome ae.imgResults).2).1 pr).1 then
          [.pageSave p (pageFilename bookDir p)
            ((generate_image_from_prompt cfg
              (takeOutcome (takeOutcome ae.imgResults).2).1 pr).1.getD [])
            ae.saveOk]
        else [])) ∧
    (∀ (cfg : Config) (consistency : Bool) (cover : Option Img) (e : PageEnv)
      (p : Nat) (st1 : CBState) (pr : String) (ev : Ev),
      ev ∈ (stage2Loop cfg consistency cover e p st1 pr).2 →
      ∃ c ok, ev = Ev.imgCall p c ok ∧ callPrompt c ∈ e.userInputs) := by
  constructor
  · intro cfg bookDir ae p st1 pr inp msg hfmt hp hprev htr herr
    unfold apiStage2
    rw [hfmt]
    dsimp only
    rw [if_pos (by rw [htr, decide_eq_true hp]; rfl)]
    rw [hprev]
    dsimp only [Option.getD]
    rw [herr]
    dsimp only
    unfold apiFinish
    cases hg : (generate_image_from_prompt cfg
        (takeOutcome (takeOutcome ae.imgResults).2).1 pr).2 with
    | some m2 =>
        dsimp only
        simp [imgTruthy]
    | none =>
        dsimp only
        cases hi : imgTruthy (generate_image_from_prompt cfg
            (takeOutcome (takeOutcome ae.imgResults).2).1 pr).1 with
        | false => simp
        | true =>
            simp
            cases (generate_image_from_prompt cfg
              (takeOutcome (takeOutcome ae.imgResults).2).1 pr).1 <;> rfl
  · intro cfg consistency cover e p st1 pr ev hmem
    unfold stage2Loop at hmem
    exact imageRetryLoop_mem _ _ _ _ _ _ _ _ hmem

/-- Witness for C2 at a concrete web-API page: the edit fails, the fallback
generation succeeds, and the page image is saved. -/
theorem C2_edit_fallback_witness :
    (apiStage2 sampleCfg true "output_books/T"
        ⟨sampleS1 1, .ok "P", [.reqExn "boom" none, .ok (some [7])], true⟩ 1
        ⟨[], some [1]⟩).1 =
      [.stage1 1 true, .imgCall 1 (.edit [1] "P") false,
        .imgCall 1 (.gen "P")
          (generate_image_from_prompt sampleCfg
            (takeOutcome (takeOutcome
              ([.reqExn "boom" none, .ok (some [7])] : List HttpOutcome)).2).1
            "P").2.isNone] ++
      (if (generate_image_from_prompt sampleCfg
            (takeOutcome (takeOutcome
              ([.reqExn "boom" none, .ok (some [7])] : List HttpOutcome)).2).1
            "P").2.isNone &&
          imgTruthy (generate_image_from_prompt sampleCfg
            (takeOutcome (takeOutcome
              ([.reqExn "boom" none, .ok (some [7])] : List HttpOutcome)).2).1
            "P").1 then
        [.pageSave 1 (pageFilename "output_books/T" 1)
          ((generate_image_from_prompt sampleCfg
            (takeOutcome (takeOutcome
              ([.reqExn "boom" none, .ok (some [7])] : List HttpOutcome)).2).1
            "P").1.getD []) true]
      else []) :=
  C2_edit_fallback.1 sampleCfg "output_books/T"
    ⟨sampleS1 1, .ok "P", [.reqExn "boom" none, .ok (some [7])], true⟩ 1
    ⟨[], some [1]⟩ "P" [1] "Error during Images API request: boom" rfl
    (by decide) rfl rfl rfl

/-- The events of a page's Stage 2 are its success marker, a block of image
calls, and at most one save of nonempty bytes at the page filename. -/
lemma pageStage2_decomp (cfg : Config) (consistency : Bool) (bookDir : String)
    (cover : Option Img) (e : PageEnv) (p : Nat) (st1 : CBState) :
    ∃ calls saves,
      (pageStage2 cfg consistency bookDir cover e p st1).1 =
        .stage1 p true :: (calls ++ saves) ∧
      (∀ ev ∈ calls, ∃ c ok, ev = Ev.imgCall p c ok) ∧
      (saves = [] ∨ ∃ d2, d2 ≠ [] ∧
        saves = [Ev.pageSave p (pageFilename bookDir p) d2 e.saveOk]) ∧
      (saves ≠ [] → calls ≠ []) := by
  cases hfmt : e.imgFmt with
  | error msg =>
      rw [pageStage2_eq_err cfg consistency bookDir cover e p st1 msg hfmt]
      exact ⟨[], [], rfl, by simp, Or.inl rfl, by simp⟩
  | ok pr =>
      rw [pageStage2_eq_ok cfg consistency bookDir cover e p st1 pr hfmt]
      by_cases htr : imgTruthy (stage2Loop cfg consistency cover e p st1 pr).1 = true
      · rw [if_pos htr]
        refine ⟨.imgCall p (stage2FirstCall cfg consistency cover e p st1 pr).1
            (stage2FirstCall cfg consistency cover e p st1 pr).2.2.isNone ::
            (stage2Loop cfg consistency cover e p st1 pr).2,
          [Ev.pageSave p (pageFilename bookDir p)
            ((stage2Loop cfg consistency cover e p st1 pr).1.getD []) e.saveOk],
          rfl, ?_, Or.inr ⟨_, imgTruthy_getD_ne _ htr, rfl⟩, by simp⟩
        intro ev hev
        rcases List.mem_cons.mp hev with h1 | h1
        · exact ⟨_, _, h1⟩
        · unfold stage2Loop at h1
          rcases imageRetryLoop_mem _ _ _ _ _ _ _ _ h1 with ⟨c, ok, hev2, _⟩
          exact ⟨c, ok, hev2⟩
      · rw [if_neg htr]
        refine ⟨.imgCall p (stage2FirstCall cfg consistency cover e p st1 pr).1
            (stage2FirstCall cfg consistency cover e p st1 pr).2.2.isNone ::
            (stage2Loop cfg consistency cover e p st1 pr).2,
          [], by simp, ?_, Or.inl rfl, by simp⟩
        intro ev hev
        rcases List.mem_cons.mp hev with h1 | h1
        · exact ⟨_, _, h1⟩
        · unfold stage2Loop at h1
          rcases imageRetryLoop_mem _ _ _ _ _ _ _ _ h1 with ⟨c, ok, hev2, _⟩
          exact ⟨c, ok, hev2⟩

/-- The events of one page-loop iteration: a Stage 1 marker, then (when
Stage 1 succeeded) image calls and at most one save. -/
lemma pageStep_decomp (cfg : Config) (style : String) (consistency : Bool)
    (bookDir : String) (cover : Option Img) (e : PageEnv) (p : Nat)
    (st : CBState) :
    ∃ b calls saves,
      (pageStep cfg style consistency bookDir cover e p st).1 =
        Ev.stage1 p b :: (calls ++ saves) ∧
      (∀ ev ∈ calls, ∃ c ok, ev = Ev.imgCall p c ok) ∧
      (saves = [] ∨ ∃ d2, d2 ≠ [] ∧
        saves = [Ev.pageSave p (pageFilename bookDir p) d2 e.saveOk]) ∧
      (saves ≠ [] → calls ≠ []) ∧
      (b = false → calls = [] ∧ saves = []) := by
  unfold pageStep
  dsimp only
  repeat' split
  all_goals first
    | exact ⟨false, [], [], rfl, by simp, Or.inl rfl, by simp,
        fun _ => ⟨rfl, rfl⟩⟩
    | exact ⟨true, [], [], rfl, by simp, Or.inl rfl, by simp,
        fun h => Bool.noConfusion h⟩
    | (rcases pageStage2_decomp cfg consistency bookDir cover e p
          ⟨(generate_single_page_structure cfg e.s1 p st.history style).2.1,
            st.prevImage⟩ with ⟨calls, saves, h1, h2, h3, h4⟩
       exact ⟨true, calls, saves, h1, h2, h3, h4, fun h => Bool.noConfusion h⟩)

/-- All events of one page-loop iteration belong to that page. -/
lemma pageStep_ev_page (cfg : Config) (style : String) (consistency : Bool)
    (bookDir : String) (cover : Option Img) (e : PageEnv) (p : Nat)
    (st : CBState) :
    ∀ ev ∈ (pageStep cfg style consistency bookDir cover e p st).1,
      evPage ev = p := by
  rcases pageStep_decomp cfg style consistency bookDir cover e p st with
    ⟨b, calls, saves, h1, h2, h3, h4, h5⟩
  intro ev hev
  rw [h1] at hev
  rcases List.mem_cons.mp hev with hh | hh
  · rw [hh]
    rfl
  · rcases List.mem_append.mp hh with hc | hs
    · rcases h2 ev hc with ⟨c, ok, he⟩
      rw [he]
      rfl
    · rcases h3 with h3 | ⟨d2, _, h3⟩
      · rw [h3] at hs
        cases hs
      · rw [h3] at hs
        rw [List.mem_singleton.mp hs]
        rfl

/-- The events of one iteration are in program order. -/
lemma pageStep_pairwise (cfg : Config) (style : String) (consistency : Bool)
    (bookDir : String) (cover : Option Img) (e : PageEnv) (p : Nat)
    (st : CBState) :
    ((pageStep cfg style consistency bookDir cover e p st).1).Pairwise evKeyLe := by
  rcases pageStep_decomp cfg style consistency bookDir cover e p st with
    ⟨b, calls, saves, h1, h2, h3, h4, h5⟩
  rw [h1]
  refine List.pairwise_cons.mpr ⟨?_, ?_⟩
  · intro ev hev
    rcases List.mem_append.mp hev with hc | hs
    · rcases h2 ev hc with ⟨c, ok, he⟩
      rw [he]
      exact Or.inr ⟨rfl, by simp [evRank]⟩
    · rcases h3 with h3 | ⟨d2, _, h3⟩
      · rw [h3] at hs
        cases hs
      · rw [h3] at hs
        rw [List.mem_singleton.mp hs]
        exact Or.inr ⟨rfl, by simp [evRank]⟩
  · refine List.pairwise_append.mpr ⟨?_, ?_, ?_⟩
    · apply List.pairwise_of_forall_mem_list
      intro a ha b hb
      rcases h2 a ha with ⟨c1, o1, ha2⟩
      rcases h2 b hb with ⟨c2, o2, hb2⟩
      rw [ha2, hb2]
      exact Or.inr ⟨rfl, le_refl _⟩
    · rcases h3 with h3 | ⟨d2, _, h3⟩ <;> rw [h3] <;> simp
    · intro a ha b hb
      rcases h2 a ha with ⟨c1, o1, ha2⟩
      rcases h3 with h3 | ⟨d2, _, h3⟩
      · rw [h3] at hb
        cases hb
      · rw [h3] at hb
        rw [ha2, List.mem_singleton.mp hb]
        exact Or.inr ⟨rfl, by simp [evRank]⟩

/-- Classification of the events of the page loop: every event belongs to
a page at or after the starting one; image calls are accompanied by their
page's Stage 1 success marker, and saves are at the page filename, carry
nonempty bytes, and are accompanied by an image call. -/
lemma pagesLoop_mem_shape (cfg : Config) (style : String) (consistency : Bool)
    (bookDir : String) (cover : Option Img) :
    ∀ (envs : List PageEnv) (p0 : Nat) (st : CBState) (ev : Ev),
      ev ∈ pagesLoop cfg style consistency bookDir cover envs p0 st →
      p0 ≤ evPage ev ∧
      ((∃ q b, ev = Ev.stage1 q b) ∨
       (∃ q c ok, ev = Ev.imgCall q c ok ∧
         Ev.stage1 q true ∈ pagesLoop cfg style consistency bookDir cover envs p0 st) ∨
       (∃ q d ok2, ev = Ev.pageSave q (pageFilename bookDir q) d ok2 ∧ d ≠ [] ∧
         ∃ c ok3,
           Ev.imgCall q c ok3 ∈ pagesLoop cfg style consistency bookDir cover envs p0 st)) := by
  intro envs
  induction envs with
  | nil =>
      intro p0 st ev hev
      simp [pagesLoop] at hev
  | cons e rest ih =>
      intro p0 st ev hev
      rcases pageStep_decomp cfg style consistency bookDir cover e p0 st with
        ⟨b, calls, saves, h1, h2, h3, h4, h5⟩
      have hblock : ∀ ev2 ∈ (pageStep cfg style consistency bookDir cover e p0 st).1,
          ev2 ∈ pagesLoop cfg style consistency bookDir cover (e :: rest) p0 st := by
        intro ev2 hev2
        rw [pagesLoop]
        cases hps : pageStep cfg style consistency bookDir cover e p0 st with
        | mk evs st2opt =>
            rw [hps] at hev2
            cases st2opt with
            | some st2 => exact List.mem_append_left _ hev2
            | none => exact hev2
      have hloop : pagesLoop cfg style consistency bookDir cover (e :: rest) p0 st =
          (pageStep cfg style consistency bookDir cover e p0 st).1 ++
            (match (pageStep cfg style consistency bookDir cover e p0 st).2 with
             | some st2 =>
                pagesLoop cfg style consistency bookDir cover rest (p0 + 1) st2
             | none => []) := by
        rw [pagesLoop]
        cases hps : pageStep cfg style consistency bookDir cover e p0 st with
        | mk evs st2opt =>
            cases st2opt with
            | some st2 => rfl
            | none => simp
      rw [hloop] at hev
      rcases List.mem_append.mp hev with hin | hin
      · -- the event belongs to this page's block
        rw [h1] at hin
        rcases List.mem_cons.mp hin with hh | hh
        · exact ⟨by rw [hh]; exact Nat.le_refl _, Or.inl ⟨p0, b, hh⟩⟩
        · rcases List.mem_append.mp hh with hc | hs
          · rcases h2 ev hc with ⟨c, ok, he⟩
            have hb : b = true := by
              cases hb2 : b with
              | true => rfl
              | false =>
                  rcases h5 hb2 with ⟨hc0, _⟩
                  rw [hc0] at hc
                  cases hc
            refine ⟨by rw [he]; exact Nat.le_refl _,
              Or.inr (Or.inl ⟨p0, c, ok, he, ?_⟩)⟩
            apply hblock
            rw [h1, hb]
            exact List.mem_cons_self _ _
          · rcases h3 with h3 | ⟨d2, hd2, h3⟩
            · rw [h3] at hs
              cases hs
            · rw [h3] at hs
              have heq := List.mem_singleton.mp hs
              have hcne : calls ≠ [] := h4 (by rw [h3]; simp)
              rcases List.exists_mem_of_ne_nil calls hcne with ⟨evc, hevc⟩
              rcases h2 evc hevc with ⟨c, ok, hevc2⟩
              refine ⟨by rw [heq]; exact Nat.le_refl _,
                Or.inr (Or.inr ⟨p0, d2, e.saveOk, heq, hd2, c, ok, ?_⟩)⟩
              apply hblock
              rw [h1]
              rw [hevc2] at hevc
              exact List.mem_cons_of_mem _ (List.mem_append_left _ hevc)
      · -- the event belongs to a later page
        rcases hps2 : (pageStep cfg style consistency bookDir cover e p0 st).2 with _ | st2
        · rw [hps2] at hin
          cases hin
        · rw [hps2] at hin
          rcases ih (p0 + 1) st2 ev hin with ⟨hge, hsh⟩
          refine ⟨Nat.le_of_succ_le hge, ?_⟩
          have hlift : ∀ ev2,
              ev2 ∈ pagesLoop cfg style consistency bookDir cover rest (p0 + 1) st2 →
              ev2 ∈ pagesLoop cfg style consistency bookDir cover (e :: rest) p0 st := by
            intro ev2 hev2
            rw [hloop, hps2]
            exact List.mem_append_right _ hev2
          rcases hsh with h | h | h
          · exact Or.inl h
          · rcases h with ⟨q, c, ok, he, hst⟩
            exact Or.inr (Or.inl ⟨q, c, ok, he, hlift _ hst⟩)
          · rcases h with ⟨q, d, ok2, he, hd, c, ok3, hst⟩
            exact Or.inr (Or.inr ⟨q, d, ok2, he, hd, c, ok3, hlift _ hst⟩)

/-- The page loop emits its events in program order. -/
lemma pagesLoop_pairwise (cfg : Config) (style : String) (consistency : Bool)
    (bookDir : String) (cover : Option Img) :
    ∀ (envs : List PageEnv) (p0 : Nat) (st : CBState),
      (pagesLoop cfg style consistency bookDir cover envs p0 st).Pairwise evKeyLe := by
  intro envs
  induction envs with
  | nil =>
      intro p0 st
      simp [pagesLoop]
  | cons e rest ih =>
      intro p0 st
      have hloop : pagesLoop cfg style consistency bookDir cover (e :: rest) p0 st =
          (pageStep cfg style consistency bookDir cover e p0 st).1 ++
            (match (pageStep cfg style consistency bookDir cover e p0 st).2 with
             | some st2 =>
                pagesLoop cfg style consistency bookDir cover rest (p0 + 1) st2
             | none => []) := by
        rw [pagesLoop]
        cases hps : pageStep cfg style consistency bookDir cover e p0 st with
        | mk evs st2opt =>
            cases st2opt with
            | some st2 => rfl
            | none => simp
      rw [hloop]
      refine List.pairwise_append.mpr
        ⟨pageStep_pairwise cfg style consistency bookDir cover e p0 st, ?_, ?_⟩
      · rcases hps2 : (pageStep cfg style consistency bookDir cover e p0 st).2 with _ | st2
        · simp
        · exact ih (p0 + 1) st2
      · intro a ha b hb
        have hpa : evPage a = p0 :=
          pageStep_ev_page cfg style consistency bookDir cover e p0 st a ha
        rcases hps2 : (pageStep cfg style consistency bookDir cover e p0 st).2 with _ | st2
        · rw [hps2] at hb
          cases hb
        · rw [hps2] at hb
          have hpb := (pagesLoop_mem_shape cfg style consistency bookDir cover
            rest (p0 + 1) st2 b hb).1
          exact Or.inl (by rw [hpa]; exact Nat.lt_of_succ_le hpb)

/-- Cover-phase events are the cover calls and the cover save, all tagged
page 0. -/
lemma coverPhase_shape (cfg : Config) (e : CoverEnv) (bookDir : String) :
    ∀ ev ∈ (coverPhase cfg e bookDir).2,
      evPage ev = 0 ∧
      ((∃ u ok, ev = Ev.coverCall u ok) ∨
        ev = Ev.coverSave (bookDir ++ "/cover.png") e.saveOk) := by
  intro ev hev
  unfold coverPhase at hev
  rcases hfmt : e.fmt with msg | pr
  · rw [hfmt] at hev
    cases hev
  · rw [hfmt] at hev
    dsimp only at hev
    split at hev
    · rcases List.mem_append.mp hev with h1 | h1
      · rcases List.mem_cons.mp h1 with h2 | h2
        · exact ⟨by rw [h2]; rfl, Or.inl ⟨_, _, h2⟩⟩
        · rcases coverRetryLoop_mem cfg _ _ _ _ h2 with ⟨u, ok, _, h3⟩
          exact ⟨by rw [h3]; rfl, Or.inl ⟨u, ok, h3⟩⟩
      · have h2 := List.mem_singleton.mp h1
        exact ⟨by rw [h2]; rfl, Or.inr h2⟩
    · rcases List.mem_cons.mp hev with h2 | h2
      · exact ⟨by rw [h2]; rfl, Or.inl ⟨_, _, h2⟩⟩
      · rcases coverRetryLoop_mem cfg _ _ _ _ h2 with ⟨u, ok, _, h3⟩
        exact ⟨by rw [h3]; rfl, Or.inl ⟨u, ok, h3⟩⟩

/-- Cover-phase events are in program order. -/
lemma coverPhase_pairwise (cfg : Config) (e : CoverEnv) (bookDir : String) :
    ((coverPhase cfg e bookDir).2).Pairwise evKeyLe := by
  unfold coverPhase
  rcases hfmt : e.fmt with msg | pr
  · simp
  · dsimp only
    have hcalls : ∀ ev2 ∈ coverRetryLoop cfg e.userInputs
        (takeOutcome e.results).2
        (generate_image_from_prompt cfg (takeOutcome e.results).1 pr) |>.2,
        ∃ u ok, ev2 = Ev.coverCall u ok := by
      intro ev2 h2
      rcases coverRetryLoop_mem cfg _ _ _ _ h2 with ⟨u, ok, _, h3⟩
      exact ⟨u, ok, h3⟩
    split
    · refine List.pairwise_append.mpr ⟨?_, ?_, ?_⟩
      · refine List.pairwise_cons.mpr ⟨?_, ?_⟩
        · intro ev2 h2
          rcases hcalls ev2 h2 with ⟨u, ok, h3⟩
          rw [h3]
          exact Or.inr ⟨rfl, le_refl _⟩
        · apply List.pairwise_of_forall_mem_list
          intro a ha b hb
          rcases hcalls a ha with ⟨u1, o1, h3⟩
          rcases hcalls b hb with ⟨u2, o2, h4⟩
          rw [h3, h4]
          exact Or.inr ⟨rfl, le_refl _⟩
      · simp
      · intro a ha b hb
        rw [List.mem_singleton.mp hb]
        rcases List.mem_cons.mp ha with h2 | h2
        · rw [h2]
          exact Or.inr ⟨rfl, by simp [evRank]⟩
        · rcases hcalls a h2 with ⟨u, ok, h3⟩
          rw [h3]
          exact Or.inr ⟨rfl, by simp [evRank]⟩
    · refine List.pairwise_cons.mpr ⟨?_, ?_⟩
      · intro ev2 h2
        rcases hcalls ev2 h2 with ⟨u, ok, h3⟩
        rw [h3]
        exact Or.inr ⟨rfl, le_refl _⟩
      · apply List.pairwise_of_forall_mem_list
        intro a ha b hb
        rcases hcalls a ha with ⟨u1, o1, h3⟩
        rcases hcalls b hb with ⟨u2, o2, h4⟩
        rw [h3, h4]
        exact Or.inr ⟨rfl, le_refl _⟩

/-- create_book_run unfolded: cover phase then page loop over the book
directory derived from the sanitized title. -/
lemma create_book_run_eq (cfg : Config) (style : String) (consistency : Bool)
    (bookTitle : String) (coverEnv : CoverEnv) (pageEnvs : List PageEnv) :
    create_book_run cfg style consistency bookTitle coverEnv pageEnvs =
      (coverPhase cfg coverEnv ("output_books/" ++ sanitize_filename bookTitle)).2 ++
      pagesLoop cfg style consistency
        ("output_books/" ++ sanitize_filename bookTitle)
        (coverPhase cfg coverEnv ("output_books/" ++ sanitize_filename bookTitle)).1
        pageEnvs 1 ⟨[], none⟩ := rfl

/-- A Stage 1 error makes the iteration emit only the failure marker and
hand the threaded history to the next page. -/
lemma pageStep_stage1_err (cfg : Config) (style : String) (consistency : Bool)
    (bookDir : String) (cover : Option Img) (e : PageEnv) (p : Nat)
    (st : CBState)
    (herr : (generate_single_page_structure cfg e.s1 p st.history style).2.2.isSome = true) :
    pageStep cfg style consistency bookDir cover e p st =
      ([Ev.stage1 p false],
        some { st with
          history := (generate_single_page_structure cfg e.s1 p st.history style).2.1 }) := by
  unfold pageStep
  dsimp only
  split
  · rfl
  · rename_i heq
    rw [heq] at herr
    simp at herr

/-- C5: a page-level API error never terminates the processing of later
pages: a Stage 1 error skips the page's image stage and the loop continues
with the next page; Stage 2 retries use user-supplied replacement prompts;
the Stage 2 error handling always hands a state to the next page; and every
processed page emits its Stage 1 marker. -/
theorem C5_page_error_isolation :
    (∀ (cfg : Config) (style : String) (consistency : Bool) (bookDir : String)
      (cover : Option Img) (e : PageEnv) (rest : List PageEnv) (p : Nat)
      (st : CBState),
      (generate_single_page_structure cfg e.s1 p st.history style).2.2.isSome = true →
      pagesLoop cfg style consistency bookDir cover (e :: rest) p st =
        Ev.stage1 p false ::
          pagesLoop cfg style consistency bookDir cover rest (p + 1)
            { st with
              history := (generate_single_page_structure cfg e.s1 p st.history style).2.1 }) ∧
    (∀ (cfg : Config) (consistency : Bool) (cover : Option Img) (e : PageEnv)
      (p : Nat) (st1 : CBState) (pr : String) (ev : Ev),
      ev ∈ (stage2Loop cfg consistency cover e p st1 pr).2 →
      ∃ c ok, ev = Ev.imgCall p c ok ∧ callPrompt c ∈ e.userInputs) ∧
    (∀ (cfg : Config) (consistency : Bool) (bookDir : String) (cover : Option Img)
      (e : PageEnv) (p : Nat) (st1 : CBState),
      ((pageStage2 cfg consistency bookDir cover e p st1).2).isSome = true) ∧
    (∀ (cfg : Config) (style : String) (consistency : Bool) (bookDir : String)
      (cover : Option Img) (e : PageEnv) (p : Nat) (st : CBState),
      ∃ b rest2, (pageStep cfg style consistency bookDir cover e p st).1 =
        Ev.stage1 p b :: rest2) := by
  refine ⟨?_, ?_, ?_, ?_⟩
  · intro cfg style consistency bookDir cover e rest p st herr
    rw [pagesLoop, pageStep_stage1_err cfg style consistency bookDir cover e p st herr]
    rfl
  · intro cfg consistency cover e p st1 pr ev hmem
    unfold stage2Loop at hmem
    exact imageRetryLoop_mem _ _ _ _ _ _ _ _ hmem
  · intro cfg consistency bookDir cover e p st1
    cases hfmt : e.imgFmt with
    | error msg =>
        rw [pageStage2_eq_err cfg consistency bookDir cover e p st1 msg hfmt]
        rfl
    | ok pr =>
        rw [pageStage2_eq_ok cfg consistency bookDir cover e p st1 pr hfmt]
        by_cases htr : imgTruthy (stage2Loop cfg consistency cover e p st1 pr).1 = true
        · rw [if_pos htr]
          rfl
        · rw [if_neg htr]
          rfl
  · intro cfg style consistency bookDir cover e p st
    rcases pageStep_decomp cfg style consistency bookDir cover e p st with
      ⟨b, calls, saves, h1, _, _, _, _⟩
    exact ⟨b, calls ++ saves, h1⟩

/-- Witness for C5: in a concrete one-page run whose Stage 1 call raises,
the whole loop emits just the failure marker and ends normally. -/
theorem C5_page_error_isolation_witness :
    pagesLoop sampleCfg "childrens" false "output_books/T" none
      [⟨⟨.ok "U", .exn "boom"⟩, .ok "P", [], [], true⟩] 2 ⟨[], none⟩ =
      [Ev.stage1 2 false] := by
  rw [C5_page_error_isolation.1 sampleCfg "childrens" false "output_books/T" none
    ⟨⟨.ok "U", .exn "boom"⟩, .ok "P", [], [], true⟩ [] 2 ⟨[], none⟩ rfl]
  rfl

/-- C6: the pipeline runs in program order: cover events (page 0) precede
all page events, pages run in ascending order with text before image before
save inside a page; an image call only happens for a page whose Stage 1
succeeded, and a save only after an image call of the same page. -/
theorem C6_pipeline_order (cfg : Config) (style : String) (consistency : Bool)
    (bookTitle : String) (coverEnv : CoverEnv) (pageEnvs : List PageEnv) :
    (create_book_run cfg style consistency bookTitle coverEnv pageEnvs).Pairwise evKeyLe ∧
    create_book_run cfg style consistency bookTitle coverEnv pageEnvs =
      (coverPhase cfg coverEnv ("output_books/" ++ sanitize_filename bookTitle)).2 ++
      pagesLoop cfg style consistency ("output_books/" ++ sanitize_filename bookTitle)
        (coverPhase cfg coverEnv ("output_books/" ++ sanitize_filename bookTitle)).1
        pageEnvs 1 ⟨[], none⟩ ∧
    (∀ ev ∈ (coverPhase cfg coverEnv ("output_books/" ++ sanitize_filename bookTitle)).2,
      evPage ev = 0) ∧
    (∀ ev ∈ pagesLoop cfg style consistency
        ("output_books/" ++ sanitize_filename bookTitle)
        (coverPhase cfg coverEnv ("output_books/" ++ sanitize_filename bookTitle)).1
        pageEnvs 1 ⟨[], none⟩, 1 ≤ evPage ev) ∧
    (∀ q c ok, Ev.imgCall q c ok ∈
        create_book_run cfg style consistency bookTitle coverEnv pageEnvs →
      Ev.stage1 q true ∈
        create_book_run cfg style consistency bookTitle coverEnv pageEnvs) ∧
    (∀ q fn d ok, Ev.pageSave q fn d ok ∈
        create_book_run cfg style consistency bookTitle coverEnv pageEnvs →
      ∃ c ok2, Ev.imgCall q c ok2 ∈
        create_book_run cfg style consistency bookTitle coverEnv pageEnvs) := by
  refine ⟨?_, create_book_run_eq cfg style consistency bookTitle coverEnv pageEnvs,
    ?_, ?_, ?_, ?_⟩
  · rw [create_book_run_eq]
    refine List.pairwise_append.mpr
      ⟨coverPhase_pairwise cfg coverEnv _, pagesLoop_pairwise _ _ _ _ _ _ _ _, ?_⟩
    intro a ha b hb
    have hpa := (coverPhase_shape cfg coverEnv _ a ha).1
    have hpb := (pagesLoop_mem_shape _ _ _ _ _ _ _ _ b hb).1
    exact Or.inl (by rw [hpa]; exact Nat.lt_of_lt_of_le Nat.zero_lt_one hpb)
  · intro ev hev
    exact (coverPhase_shape cfg coverEnv _ ev hev).1
  · intro ev hev
    exact (pagesLoop_mem_shape _ _ _ _ _ _ _ _ ev hev).1
  · intro q c ok hmem
    rw [create_book_run_eq] at hmem ⊢
    rcases List.mem_append.mp hmem with h1 | h1
    · rcases (coverPhase_shape cfg coverEnv _ _ h1).2 with ⟨u, ok2, he⟩ | he
      · exact Ev.noConfusion he
      · exact Ev.noConfusion he
    · rcases (pagesLoop_mem_shape _ _ _ _ _ _ _ _ _ h1).2 with h | h | h
      · rcases h with ⟨q2, b2, he⟩
        exact Ev.noConfusion he
      · rcases h with ⟨q2, c2, ok2, he, hst⟩
        injection he with hq _ _
        rw [hq]
        exact List.mem_append_right _ hst
      · rcases h with ⟨q2, d2, ok2, he, _, _, _, _⟩
        exact Ev.noConfusion he
  · intro q fn d ok hmem
    rw [create_book_run_eq] at hmem ⊢
    rcases List.mem_append.mp hmem with h1 | h1
    · rcases (coverPhase_shape cfg coverEnv _ _ h1).2 with ⟨u, ok2, he⟩ | he
      · exact Ev.noConfusion he
      · exact Ev.noConfusion he
    · rcases (pagesLoop_mem_shape _ _ _ _ _ _ _ _ _ h1).2 with h | h | h
      · rcases h with ⟨q2, b2, he⟩
        exact Ev.noConfusion he
      · rcases h with ⟨q2, c2, ok2, he, _⟩
        exact Ev.noConfusion he
      · rcases h with ⟨q2, d2, ok2, he, _, c3, ok3, hst⟩
        injection he with hq _ _ _
        rw [hq]
        exact ⟨c3, ok3, List.mem_append_right _ hst⟩

/-- Witness for C6 at a concrete one-page run: the page 1 image call is
covered by a page 1 Stage 1 success, and its save by an image call. -/
theorem C6_pipeline_order_witness :
    Ev.stage1 1 true ∈ create_book_run sampleCfg "childrens" false "T"
      ⟨.error "m", [], [], true⟩ [⟨sampleS1 1, .ok "P", [.ok (some [1])], [], true⟩] ∧
    (∃ c ok2, Ev.imgCall 1 c ok2 ∈ create_book_run sampleCfg "childrens" false "T"
      ⟨.error "m", [], [], true⟩ [⟨sampleS1 1, .ok "P", [.ok (some [1])], [], true⟩]) :=
  ⟨(C6_pipeline_order sampleCfg "childrens" false "T" ⟨.error "m", [], [], true⟩
      [⟨sampleS1 1, .ok "P", [.ok (some [1])], [], true⟩]).2.2.2.2.1 1 (.gen "P") true
      (by decide),
   (C6_pipeline_order sampleCfg "childrens" false "T" ⟨.error "m", [], [], true⟩
      [⟨sampleS1 1, .ok "P", [.ok (some [1])], [], true⟩]).2.2.2.2.2 1
      "output_books/T/page_01.png" [1] true (by decide)⟩

/-- C7 counterexample: in a 100-page book, page 100 is saved as
page_100.png, whose page-number part has three digits. -/
theorem C7_counterexample : ¬ C7_claim := by
  intro hcl
  obtain ⟨s, hs2, hfn⟩ := hcl sampleCfg "childrens" false "T"
    ⟨.error "m", [], [], true⟩
    (List.replicate 100 ⟨sampleS1 100, .ok "P", [.ok (some [1])], [], true⟩)
    100 "output_books/T/page_100.png" [1] true (by decide)
  have hlen := congrArg String.length hfn
  rw [String.length_append, String.length_append, String.length_append,
    String.length_append] at hlen
  rw [hs2] at hlen
  rw [show ("output_books/T/page_100.png" : String).length = 27 from rfl] at hlen
  rw [show ("output_books/" : String).length = 13 from rfl] at hlen
  rw [show (sanitize_filename "T").length = 1 from rfl] at hlen
  rw [show ("/page_" : String).length = 6 from rfl] at hlen
  rw [show (".png" : String).length = 4 from rfl] at hlen
  omega

/-- C7 (amended): every successfully produced page image is written to the
per-book directory under page_NN.png with NN the page number zero-padded to
at least two digits (exactly two for pages below 100); the cover goes to
cover.png in the same directory; a page whose Stage 1 failed or whose image
was skipped produces no page file. -/
theorem C7_output_files :
    (∀ (cfg : Config) (style : String) (consistency : Bool) (bookTitle : String)
      (coverEnv : CoverEnv) (pageEnvs : List PageEnv) (q : Nat) (fn : String)
      (d : Img) (ok : Bool),
      Ev.pageSave q fn d ok ∈
        create_book_run cfg style consistency bookTitle coverEnv pageEnvs →
      fn = pageFilename ("output_books/" ++ sanitize_filename bookTitle) q ∧ d ≠ []) ∧
    (∀ (cfg : Config) (style : String) (consistency : Bool) (bookTitle : String)
      (coverEnv : CoverEnv) (pageEnvs : List PageEnv) (fn : String) (ok : Bool),
      Ev.coverSave fn ok ∈
        create_book_run cfg style consistency bookTitle coverEnv pageEnvs →
      fn = ("output_books/" ++ sanitize_filename bookTitle) ++ "/cover.png") ∧
    (∀ (cfg : Config) (style : String) (consistency : Bool) (bookDir : String)
      (cover : Option Img) (e : PageEnv) (p : Nat) (st : CBState),
      (generate_single_page_structure cfg e.s1 p st.history style).2.2.isSome = true →
      (pageStep cfg style consistency bookDir cover e p st).1 = [Ev.stage1 p false]) ∧
    (∀ (cfg : Config) (consistency : Bool) (bookDir : String) (cover : Option Img)
      (e : PageEnv) (p : Nat) (st1 : CBState) (pr : String),
      e.imgFmt = .ok pr →
      imgTruthy (stage2Loop cfg consistency cover e p st1 pr).1 = false →
      ∀ q fn d ok, Ev.pageSave q fn d ok ∉
        (pageStage2 cfg consistency bookDir cover e p st1).1) ∧
    (∀ n, n < 100 → (format02 n).length = 2) := by
  refine ⟨?_, ?_, ?_, ?_, by decide⟩
  · intro cfg style consistency bookTitle coverEnv pageEnvs q fn d ok hmem
    rw [create_book_run_eq] at hmem
    rcases List.mem_append.mp hmem with h1 | h1
    · rcases (coverPhase_shape cfg coverEnv _ _ h1).2 with ⟨u, ok2, he⟩ | he
      · exact Ev.noConfusion he
      · exact Ev.noConfusion he
    · rcases (pagesLoop_mem_shape _ _ _ _ _ _ _ _ _ h1).2 with h | h | h
      · rcases h with ⟨q2, b2, he⟩
        exact Ev.noConfusion he
      · rcases h with ⟨q2, c2, ok2, he, _⟩
        exact Ev.noConfusion he
      · rcases h with ⟨q2, d2, ok2, he, hd2, _, _, _⟩
        injection he with hq hfn hd hok
        subst hq
        exact ⟨hfn, by rw [hd]; exact hd2⟩
  · intro cfg style consistency bookTitle coverEnv pageEnvs fn ok hmem
    rw [create_book_run_eq] at hmem
    rcases List.mem_append.mp hmem with h1 | h1
    · rcases (coverPhase_shape cfg coverEnv _ _ h1).2 with ⟨u, ok2, he⟩ | he
      · exact Ev.noConfusion he
      · simp only [Ev.coverSave.injEq] at he
        exact he.1
    · rcases (pagesLoop_mem_shape _ _ _ _ _ _ _ _ _ h1).2 with h | h | h
      · rcases h with ⟨q2, b2, he⟩
        exact Ev.noConfusion he
      · rcases h with ⟨q2, c2, ok2, he, _⟩
        exact Ev.noConfusion he
      · rcases h with ⟨q2, d2, ok2, he, _, _, _, _⟩
        exact Ev.noConfusion he
  · intro cfg style consistency bookDir cover e p st herr
    rw [pageStep_stage1_err cfg style consistency bookDir cover e p st herr]
  · intro cfg consistency bookDir cover e p st1 pr hfmt htr q fn d ok hmem
    rw [pageStage2_eq_ok cfg consistency bookDir cover e p st1 pr hfmt,
      if_neg (by rw [htr]; simp)] at hmem
    rcases List.mem_cons.mp hmem with h1 | h1
    · exact Ev.noConfusion h1
    · rcases List.mem_cons.mp h1 with h2 | h2
      · exact Ev.noConfusion h2
      · unfold stage2Loop at h2
        rcases imageRetryLoop_mem _ _ _ _ _ _ _ _ h2 with ⟨c, ok2, he, _⟩
        exact Ev.noConfusion he

/-- Witness for C7 at a concrete one-page run: the saved file is the
page_01.png of the sanitized book directory and carries nonempty bytes. -/
theorem C7_output_files_witness :
    "output_books/T/page_01.png" =
      pageFilename ("output_books/" ++ sanitize_filename "T") 1 ∧ ([1] : Img) ≠ [] :=
  C7_output_files.1 sampleCfg "childrens" false "T" ⟨.error "m", [], [], true⟩
    [⟨sampleS1 1, .ok "P", [.ok (some [1])], [], true⟩] 1
    "output_books/T/page_01.png" [1] true (by decide)

/-- C8: openai_api defines no name edit_image_from_prompt, yet
create_book.py, api.py and test_book_generation.py all import it from
openai_api, so loading any of the three raises ImportError at that name
(and hence the Stage 2 image-edit path is unreachable). -/
theorem C8_import_error :
    openai_api_names.contains "edit_image_from_prompt" = false ∧
    create_book_imports.contains "edit_image_from_prompt" = true ∧
    api_imports.contains "edit_image_from_prompt" = true ∧
    test_book_generation_imports.contains "edit_image_from_prompt" = true ∧
    fromImportError openai_api_names create_book_imports =
      some "edit_image_from_prompt" ∧
    fromImportError openai_api_names api_imports = some "edit_image_from_prompt" ∧
    fromImportError openai_api_names test_book_generation_imports =
      some "edit_image_from_prompt" := by
  refine ⟨rfl, rfl, rfl, rfl, rfl, rfl, rfl⟩

end SKRYB
